import Mathlib

/-!
Verification of the multiplayer session layer of Dark Tamagotchi
(`tamagotchi/network/server.py`, `src/network/network.py`).

The server is shallowly embedded as a pure state machine: each Python
handler method becomes a Lean function on an explicit `ServerState`;
`time.time()` values are passed in as explicit `now : Nat` arguments;
`uuid.uuid4()` identifiers are modelled by a fresh-id counter `nextId`
(all that the code relies on is that generated ids are unique); socket
sends become appends to an `outbox` list of (recipient, message) pairs;
Python dicts (`self.clients`, `self.battles`, `self.adventure_parties`)
become association lists with dict semantics (replace on assignment,
remove on `del`).  Creature snapshots are opaque to the server (it only
stores and forwards them), so they are modelled by an opaque `Nat` token.
-/
/-! ## Association lists with Python-dict semantics -/
/-- `m[k]` lookup: first entry with the given key. -/
def alookup {β : Type} : List (Nat × β) → Nat → Option β
  | [], _ => none
  | (k, v) :: t, k' => if k = k' then some v else alookup t k'

/-- `m[k] = v`: replace the entry for `k`, or append a new one. -/
def aset {β : Type} : List (Nat × β) → Nat → β → List (Nat × β)
  | [], k, v => [(k, v)]
  | (k0, v0) :: t, k, v => if k0 = k then (k, v) :: t else (k0, v0) :: aset t k v

/-- `del m[k]`: remove the entry for `k`. -/
def aerase {β : Type} : List (Nat × β) → Nat → List (Nat × β)
  | [], _ => []
  | (k0, v0) :: t, k => if k0 = k then aerase t k else (k0, v0) :: aerase t k

/-! ## Server data model (`server.py`) -/
/-- Creature snapshots are opaque records to the server; it never inspects
their fields, only stores and forwards them, so a token suffices. -/
abbrev Creature := Nat

/-- The role strings `"player1"` / `"player2"` used for battle sides. -/
inductive Side : Type where
  | player1
  | player2
deriving DecidableEq, Repr

/-- The strings `"waiting"` / `"active"` stored in `party_data["state"]`. -/
inductive PartyState : Type where
  | waiting
  | active
deriving DecidableEq, Repr

/-- Per-connection state of a `ClientHandler` (its `player_id` is the key
under which it is stored in `GameServer.clients`). -/
structure Client : Type where
  username : String
  creature : Option Creature
  in_lobby : Bool
  in_battle : Bool
  battle_id : Option Nat
  in_adventure : Bool
  adventure_id : Option Nat
deriving DecidableEq, Repr

/-- A `battle_data` record stored in `GameServer.battles`. -/
structure Battle : Type where
  id : Nat
  player1 : Nat
  player2 : Nat
  creature1 : Option Creature
  creature2 : Option Creature
  current_turn : Side
  start_time : Nat
  last_activity : Nat
deriving DecidableEq, Repr

/-- A `party_data` record stored in `GameServer.adventure_parties`. -/
structure Party : Type where
  id : Nat
  host : Nat
  members : List Nat
  creatures : List (Option Creature)
  usernames : List String
  state : PartyState
  creation_time : Nat
  last_activity : Nat
deriving DecidableEq, Repr

/-- An entry of the list returned by `GameServer.get_adventure_parties`. -/
structure PartyInfo : Type where
  id : Nat
  host : Nat
  host_username : String
  member_count : Nat
  creation_time : Nat
deriving DecidableEq, Repr

/-- Server-to-client envelopes, with the payload fields the server fills in. -/
inductive Msg : Type where
  | LOBBY_JOINED (player_id : Nat) (username : String) (players_waiting : Nat)
  | LOBBY_LEFT (player_id : Nat)
  | LOBBY_STATUS (players_waiting : Nat) (timestamp : Nat)
  | BATTLE_START (battle_id : Nat) (your_role : Side)
      (player_creature opponent_creature : Option Creature) (current_turn : Side)
  | BATTLE_ACTION (battle_id : Nat) (ability_index : Nat) (current_turn : Side)
  | BATTLE_END (battle_id : Nat) (winner : Option Side) (reason : String)
  | ADVENTURE_CREATED (adventure_id : Nat) (player_id : Nat)
  | ADVENTURE_JOINED (adventure_id : Nat) (player_id : Nat)
  | ADVENTURE_JOIN_FAILED (adventure_id : Nat) (message : String)
  | ADVENTURE_PARTY_UPDATE (adventure_id : Nat) (members : List Nat)
      (creatures : List (Option Creature)) (usernames : List String)
      (host : Nat) (state : PartyState) (timestamp : Nat)
  | ADVENTURE_START (adventure_id : Nat) (members : List Nat)
      (creatures : List (Option Creature)) (usernames : List String)
      (host : Nat) (timestamp : Nat)
  | ADVENTURE_UPDATE (adventure_id : Nat) (from_player : Nat) (data : Nat)
      (timestamp : Nat)
  | ADVENTURE_PARTIES (parties : List PartyInfo)
deriving DecidableEq, Repr

/-- The whole mutable state of a `GameServer`, plus the `outbox` of messages
pushed onto client sockets (in send order) and the fresh-id counter that
stands in for `uuid.uuid4()`. -/
structure ServerState : Type where
  clients : List (Nat × Client)
  lobby : List Nat
  battles : List (Nat × Battle)
  parties : List (Nat × Party)
  nextId : Nat
  outbox : List (Nat × Msg)
deriving DecidableEq, Repr

/-- `ClientHandler.send` / `client.send(...)`: push one envelope onto the
recipient's socket (exceptions are swallowed, so the model always records
the attempted send). -/
def send (pid : Nat) (m : Msg) (st : ServerState) : ServerState :=
  { st with outbox := st.outbox ++ [(pid, m)] }

def initClient : Client :=
  { username := "Player", creature := none, in_lobby := false,
    in_battle := false, battle_id := none,
    in_adventure := false, adventure_id := none }

def initState : ServerState :=
  { clients := [], lobby := [], battles := [], parties := [],
    nextId := 0, outbox := [] }

/-! ## Lobby management (`GameServer`) -/
/-- `GameServer.get_lobby_count`. -/
def get_lobby_count (st : ServerState) : Nat := st.lobby.length

/-- `GameServer.broadcast_lobby_status`: one `LOBBY_STATUS` message is built
and sent to every client currently in the lobby, in queue order. -/
def broadcast_lobby_status (now : Nat) (st : ServerState) : ServerState :=
  { st with outbox :=
      st.outbox ++ st.lobby.map (fun p => (p, Msg.LOBBY_STATUS st.lobby.length now)) }

/-- `GameServer.add_to_lobby`: append the client to the queue if it is not
already there, then broadcast the lobby status. -/
def add_to_lobby (pid : Nat) (now : Nat) (st : ServerState) : ServerState :=
  if pid ∈ st.lobby then st
  else broadcast_lobby_status now { st with lobby := st.lobby ++ [pid] }

/-- `GameServer.remove_from_lobby`: remove the client from the queue if
present (Python `list.remove`: first occurrence), then broadcast. -/
def remove_from_lobby (pid : Nat) (now : Nat) (st : ServerState) : ServerState :=
  if pid ∈ st.lobby then
    broadcast_lobby_status now { st with lobby := st.lobby.erase pid }
  else st

/-! ## Battle management (`GameServer`) -/
/-- The body of the `for pid in [player1_id, player2_id]` loop inside
`GameServer.end_battle`: clear the client's battle flags and send it the
`BATTLE_END` envelope, provided it is registered and still references this
battle. -/
def notify_battle_end (bid : Nat) (winner : Option Side) (reason : String)
    (s : ServerState) (p : Nat) : ServerState :=
  match alookup s.clients p with
  | none => s
  | some c =>
    if c.in_battle ∧ c.battle_id = some bid then
      let c1 := { c with in_battle := false, battle_id := none }
      send p (Msg.BATTLE_END bid winner reason)
        { s with clients := aset s.clients p c1 }
    else s

/-- `GameServer.end_battle`.  `ender = some pid` corresponds to the Python
call `end_battle(battle_id, player_id)` for a defeat/disconnect; `none`
to `end_battle(battle_id)` for a clean completion. -/
def end_battle (bid : Nat) (ender : Option Nat) (st : ServerState) : ServerState :=
  match alookup st.battles bid with
  | none => st
  | some b =>
    let winner : Option Side :=
      ender.map (fun p => if p = b.player1 then Side.player2 else Side.player1)
    let reason : String := if ender.isSome then "disconnect" else "completion"
    let st2 := [b.player1, b.player2].foldl (notify_battle_end bid winner reason) st
    { st2 with battles := aerase st2.battles bid }

/-- `GameServer.process_battle_action`.  Note that the source refreshes
`battle["last_activity"]` before checking whose turn it is. -/
def process_battle_action (bid pid idx now : Nat) (st : ServerState) : ServerState :=
  match alookup st.battles bid with
  | none => st
  | some b =>
    let b1 := { b with last_activity := now }
    let stA := { st with battles := aset st.battles bid b1 }
    let player_role := if pid = b.player1 then Side.player1 else Side.player2
    let opponent_role := if player_role = Side.player1 then Side.player2 else Side.player1
    let opponent_id := if player_role = Side.player1 then b.player2 else b.player1
    if b1.current_turn ≠ player_role then stA
    else
      match alookup stA.clients opponent_id with
      | none => end_battle bid (some pid) stA
      | some _ =>
        let b2 := { b1 with current_turn := opponent_role }
        let stB := { stA with battles := aset stA.battles bid b2 }
        send opponent_id (Msg.BATTLE_ACTION bid idx opponent_role) stB

/-- `GameServer.match_players`: pair the two oldest queued clients.  In the
source the queue holds the `ClientHandler` objects themselves; here it holds
their ids, so their records are looked up in `clients` (the lookup always
succeeds, since a handler is registered in `GameServer.clients` on accept and
never deleted). -/
def match_players (now : Nat) (st : ServerState) : ServerState :=
  match st.lobby with
  | p1 :: p2 :: _ =>
    match alookup st.clients p1, alookup st.clients p2 with
    | some c1, some c2 =>
      let st1 := remove_from_lobby p1 now st
      let st2 := remove_from_lobby p2 now st1
      let bid := st2.nextId
      let bt : Battle :=
        { id := bid, player1 := p1, player2 := p2,
          creature1 := c1.creature, creature2 := c2.creature,
          current_turn := Side.player1, start_time := now, last_activity := now }
      let st3 := { st2 with battles := aset st2.battles bid bt,
                            nextId := st2.nextId + 1 }
      let c1b := { c1 with in_battle := true, battle_id := some bid }
      let c2b := { c2 with in_battle := true, battle_id := some bid }
      let st4 := { st3 with clients := aset (aset st3.clients p1 c1b) p2 c2b }
      let st5 := send p1 (Msg.BATTLE_START bid Side.player1
                            c1.creature c2.creature Side.player1) st4
      send p2 (Msg.BATTLE_START bid Side.player2
                 c2.creature c1.creature Side.player1) st5
    | _, _ => st
  | _ => st

/-- `GameServer.matchmaking_loop`, unrolled: one `match_players` call per
one-second tick of the background thread. -/
def match_loop (k now : Nat) (st : ServerState) : ServerState :=
  match k with
  | 0 => st
  | k + 1 => match_loop k now (match_players now st)

/-! ## Adventure management (`GameServer`) -/
/-- `GameServer.create_adventure_party`.  The creator's creature and
username are those of the calling `ClientHandler`. -/
def create_adventure_party (pid : Nat) (creature : Option Creature)
    (username : String) (now : Nat) (st : ServerState) : Nat × ServerState :=
  let aid := st.nextId
  let party : Party :=
    { id := aid, host := pid, members := [pid], creatures := [creature],
      usernames := [username], state := PartyState.waiting,
      creation_time := now, last_activity := now }
  (aid, { st with parties := aset st.parties aid party, nextId := st.nextId + 1 })

/-- `GameServer.broadcast_adventure_update`: sends the full party roster to
every member that is a registered client. -/
def broadcast_adventure_update (aid now : Nat) (st : ServerState) : ServerState :=
  match alookup st.parties aid with
  | none => st
  | some p =>
    let m := Msg.ADVENTURE_PARTY_UPDATE aid p.members p.creatures p.usernames
      p.host p.state now
    let dst := (p.members.filter (fun q => (alookup st.clients q).isSome)).map
      (fun q => (q, m))
    { st with outbox := st.outbox ++ dst }

/-- `GameServer.broadcast_adventure_start`. -/
def broadcast_adventure_start (aid now : Nat) (st : ServerState) : ServerState :=
  match alookup st.parties aid with
  | none => st
  | some p =>
    let m := Msg.ADVENTURE_START aid p.members p.creatures p.usernames p.host now
    let dst := (p.members.filter (fun q => (alookup st.clients q).isSome)).map
      (fun q => (q, m))
    { st with outbox := st.outbox ++ dst }

/-- `GameServer.join_adventure_party`, returning the Python `bool` result
together with the updated server state. -/
def join_adventure_party (aid pid : Nat) (creature : Option Creature)
    (username : String) (now : Nat) (st : ServerState) : Bool × ServerState :=
  match alookup st.parties aid with
  | none => (false, st)
  | some p =>
    if 4 ≤ p.members.length then (false, st)
    else if p.state ≠ PartyState.waiting then (false, st)
    else
      let p1 := { p with members := p.members ++ [pid],
                         creatures := p.creatures ++ [creature],
                         usernames := p.usernames ++ [username],
                         last_activity := now }
      let st1 := { st with parties := aset st.parties aid p1 }
      let st2 := broadcast_adventure_update aid now st1
      if 2 ≤ p1.members.length then
        let p2 := { p1 with state := PartyState.active }
        let st3 := { st2 with parties := aset st2.parties aid p2 }
        (true, broadcast_adventure_start aid now st3)
      else (true, st2)

/-- `GameServer.remove_from_adventure`.  Python pops `members.index(pid)`
(the first occurrence) from all three parallel lists; when the branch that
promotes a new host runs, the member list is non-empty, so the `headD`
default is never used. -/
def remove_from_adventure (aid pid now : Nat) (st : ServerState) : ServerState :=
  match alookup st.parties aid with
  | none => st
  | some p =>
    if pid ∈ p.members then
      let i := p.members.indexOf pid
      let p1 := { p with members := p.members.eraseIdx i,
                         creatures := p.creatures.eraseIdx i,
                         usernames := p.usernames.eraseIdx i,
                         last_activity := now }
      if p1.members = [] then { st with parties := aerase st.parties aid }
      else
        let p2 := if pid = p.host then { p1 with host := p1.members.headD p.host }
                  else p1
        broadcast_adventure_update aid now
          { st with parties := aset st.parties aid p2 }
    else st

/-- `GameServer.process_adventure_update`: relays the update to every other
member that is a registered client. -/
def process_adventure_update (aid pid : Nat) (payload : Nat) (now : Nat)
    (st : ServerState) : ServerState :=
  match alookup st.parties aid with
  | none => st
  | some p =>
    if pid ∈ p.members then
      let p1 := { p with last_activity := now }
      let st1 := { st with parties := aset st.parties aid p1 }
      let m := Msg.ADVENTURE_UPDATE aid pid payload now
      let dst := (p.members.filter (fun q => q ≠ pid ∧ (alookup st.clients q).isSome)).map
        (fun q => (q, m))
      { st1 with outbox := st1.outbox ++ dst }
    else st

/-- `GameServer.get_adventure_parties`: only parties still in state
`waiting` are listed (the source indexes `usernames[0]` directly; a waiting
party always has its creator as a member, so the `headD` default is
never used on reachable states). -/
def get_adventure_parties (st : ServerState) : List PartyInfo :=
  st.parties.filterMap (fun q =>
    if q.2.state = PartyState.waiting then
      some { id := q.1, host := q.2.host, host_username := q.2.usernames.headD "",
             member_count := q.2.members.length, creation_time := q.2.creation_time }
    else none)

/-! ## ClientHandler message handlers -/
/-- `ClientHandler.handle_join_lobby`. -/
def handle_join_lobby (pid : Nat) (creature : Creature) (uname : Option String)
    (now : Nat) (st : ServerState) : ServerState :=
  match alookup st.clients pid with
  | none => st
  | some c =>
    let c1 := { c with creature := some creature,
                       username := uname.getD c.username }
    let st0 := { st with clients := aset st.clients pid c1 }
    let st1 := add_to_lobby pid now st0
    let st2 := { st1 with clients := aset st1.clients pid { c1 with in_lobby := true } }
    send pid (Msg.LOBBY_JOINED pid c1.username (get_lobby_count st2)) st2

/-- `ClientHandler.handle_leave_lobby`. -/
def handle_leave_lobby (pid now : Nat) (st : ServerState) : ServerState :=
  match alookup st.clients pid with
  | none => st
  | some c =>
    if c.in_lobby then
      let st1 := remove_from_lobby pid now st
      let st2 := { st1 with clients := aset st1.clients pid { c with in_lobby := false } }
      send pid (Msg.LOBBY_LEFT pid) st2
    else st

/-- `ClientHandler.handle_battle_action`.  When `battle_id` is `None` the
source passes it through to `process_battle_action`, whose membership test
fails; both cases leave the state unchanged. -/
def handle_battle_action (pid idx now : Nat) (st : ServerState) : ServerState :=
  match alookup st.clients pid with
  | none => st
  | some c =>
    if c.in_battle then
      match c.battle_id with
      | some bid => process_battle_action bid pid idx now st
      | none => st
    else st

/-- `ClientHandler.handle_create_adventure`. -/
def handle_create_adventure (pid : Nat) (creature : Creature) (now : Nat)
    (st : ServerState) : ServerState :=
  match alookup st.clients pid with
  | none => st
  | some c =>
    let c1 := { c with creature := some creature }
    let st0 := { st with clients := aset st.clients pid c1 }
    let r := create_adventure_party pid (some creature) c1.username now st0
    let c2 := { c1 with adventure_id := some r.1, in_adventure := true }
    let st2 := { r.2 with clients := aset r.2.clients pid c2 }
    send pid (Msg.ADVENTURE_CREATED r.1 pid) st2

/-- `ClientHandler.handle_join_adventure`. -/
def handle_join_adventure (pid aid : Nat) (creature : Creature) (now : Nat)
    (st : ServerState) : ServerState :=
  match alookup st.clients pid with
  | none => st
  | some c =>
    let c1 := { c with creature := some creature }
    let st0 := { st with clients := aset st.clients pid c1 }
    let r := join_adventure_party aid pid (some creature) c1.username now st0
    if r.1 then
      let c2 := { c1 with adventure_id := some aid, in_adventure := true }
      let st2 := { r.2 with clients := aset r.2.clients pid c2 }
      send pid (Msg.ADVENTURE_JOINED aid pid) st2
    else
      send pid (Msg.ADVENTURE_JOIN_FAILED aid "Failed to join adventure party") r.2

/-- `ClientHandler.handle_adventure_update`. -/
def handle_adventure_update (pid : Nat) (payload now : Nat)
    (st : ServerState) : ServerState :=
  match alookup st.clients pid with
  | none => st
  | some c =>
    if c.in_adventure then
      match c.adventure_id with
      | some aid => process_adventure_update aid pid payload now st
      | none => st
    else st

/-- `ClientHandler.handle_get_adventure_parties`. -/
def handle_get_adventure_parties (pid : Nat) (st : ServerState) : ServerState :=
  match alookup st.clients pid with
  | none => st
  | some _ => send pid (Msg.ADVENTURE_PARTIES (get_adventure_parties st)) st

/-- `ClientHandler.clean_up`: runs on disconnect.  The source reads the
live handler object between steps, so each flag is re-read from the
current state. -/
def clean_up (pid now : Nat) (st : ServerState) : ServerState :=
  match alookup st.clients pid with
  | none => st
  | some c =>
    let st1 := if c.in_lobby then remove_from_lobby pid now st else st
    let st2 :=
      match alookup st1.clients pid with
      | none => st1
      | some c1 =>
        if c1.in_battle then
          match c1.battle_id with
          | some bid => end_battle bid (some pid) st1
          | none => st1
        else st1
    match alookup st2.clients pid with
    | none => st2
    | some c2 =>
      if c2.in_adventure then
        match c2.adventure_id with
        | some aid => remove_from_adventure aid pid now st2
        | none => st2
      else st2

/-! ## The server as a state machine over inbound events -/
/-- One inbound occurrence the server reacts to: a new connection, a
disconnect, one envelope from a connected client, or one tick of the
matchmaking loop.  `now` models the `time.time()` reading during that
occurrence. -/
inductive Event : Type where
  | connect
  | disconnect (pid now : Nat)
  | joinLobby (pid : Nat) (creature : Creature) (uname : Option String) (now : Nat)
  | leaveLobby (pid now : Nat)
  | battleAction (pid idx now : Nat)
  | createAdventure (pid : Nat) (creature : Creature) (now : Nat)
  | joinAdventure (pid aid : Nat) (creature : Creature) (now : Nat)
  | adventureUpdate (pid payload now : Nat)
  | getAdventureParties (pid : Nat)
  | matchTick (now : Nat)
deriving DecidableEq, Repr

/-- Dispatch of one event, mirroring `ClientHandler.process_message`,
`GameServer.accept_connections` (connect), `ClientHandler.run` (disconnect)
and `GameServer.matchmaking_loop` (tick). -/
def serverStep (st : ServerState) (e : Event) : ServerState :=
  match e with
  | .connect =>
    { st with clients := aset st.clients st.nextId initClient,
              nextId := st.nextId + 1 }
  | .disconnect pid now => clean_up pid now st
  | .joinLobby pid cr un now => handle_join_lobby pid cr un now st
  | .leaveLobby pid now => handle_leave_lobby pid now st
  | .battleAction pid idx now => handle_battle_action pid idx now st
  | .createAdventure pid cr now => handle_create_adventure pid cr now st
  | .joinAdventure pid aid cr now => handle_join_adventure pid aid cr now st
  | .adventureUpdate pid d now => handle_adventure_update pid d now st
  | .getAdventureParties pid => handle_get_adventure_parties pid st
  | .matchTick now => match_players now st

/-- A run of the server from a given state. -/
def runEvents (st : ServerState) (es : List Event) : ServerState :=
  es.foldl serverStep st

/-- The party-size invariant: at most 2 members, and at most 1 while the
room is still `waiting`. -/
def PartyInv (st : ServerState) : Prop :=
  ∀ aid p, alookup st.parties aid = some p →
    p.members.length ≤ 2 ∧
    (p.state = PartyState.waiting → p.members.length ≤ 1)

/-! ## Claim C1: FIFO matchmaking -/
/-- The pairs the FIFO matchmaker forms from a queue: first two, next two, … -/
def lobbyPairs : List Nat → List (Nat × Nat)
  | a :: b :: t => (a, b) :: lobbyPairs t
  | _ => []

/-! ## Message Channel: newline framing over JSON (`network.py`, `server.py`)

The repository's framing code appends `'\n'` after `json.dumps(...)` and
splits inbound buffers on the first `'\n'`, handing each frame to
`json.loads`.  The `json` standard library is not part of the repository;
it is modelled here by a JSON value type with a serializer (`dumps`,
default separators `", "`/`": "`, the standard named escapes) and a
recursive-descent parser (`loads`).  Numbers are modelled as integers
(envelope timestamps are floats in Python; floating point is outside this
model), and `\uXXXX` escapes are not modelled — neither affects the
framing behaviour the claims are about. -/
mutual
inductive Json : Type where
  | null : Json
  | bool (b : Bool) : Json
  | num (n : Int) : Json
  | str (s : String) : Json
  | arr (a : JArr) : Json
  | obj (o : JObj) : Json
deriving DecidableEq
inductive JArr : Type where
  | nil : JArr
  | cons (hd : Json) (tl : JArr) : JArr
deriving DecidableEq
inductive JObj : Type where
  | nil : JObj
  | cons (key : String) (val : Json) (tl : JObj) : JObj
deriving DecidableEq
end

/-- JSON string escaping, as `json.dumps` performs it for the named
escapes. -/
def escChar (c : Char) : List Char :=
  if c = '"' then ['\\', '"']
  else if c = '\\' then ['\\', '\\']
  else if c = '\n' then ['\\', 'n']
  else if c = '\r' then ['\\', 'r']
  else if c = '\t' then ['\\', 't']
  else if c = '\x08' then ['\\', 'b']
  else if c = '\x0c' then ['\\', 'f']
  else [c]

def escString (s : List Char) : List Char := (s.map escChar).flatten

def digitChar (d : Nat) : Char :=
  if d = 0 then '0'
  else if d = 1 then '1'
  else if d = 2 then '2'
  else if d = 3 then '3'
  else if d = 4 then '4'
  else if d = 5 then '5'
  else if d = 6 then '6'
  else if d = 7 then '7'
  else if d = 8 then '8'
  else '9'

def natToChars (n : Nat) : List Char :=
  if _h : n < 10 then [digitChar n]
  else natToChars (n / 10) ++ [digitChar (n % 10)]
decreasing_by exact Nat.div_lt_self (by omega) (by omega)

def intToChars (i : Int) : List Char :=
  if i < 0 then '-' :: natToChars i.natAbs else natToChars i.toNat

/-- The literal token `null` as characters. -/
def nullTok : List Char := ['n', 'u', 'l', 'l']

/-- The literal token `true` as characters. -/
def trueTok : List Char := ['t', 'r', 'u', 'e']

/-- The literal token `false` as characters. -/
def falseTok : List Char := ['f', 'a', 'l', 's', 'e']

mutual
def dumpJ : Json → List Char
  | .null => nullTok
  | .bool true => trueTok
  | .bool false => falseTok
  | .num n => intToChars n
  | .str s => '"' :: (escString s.data ++ ['"'])
  | .arr a => '[' :: (dumpA a ++ [']'])
  | .obj o => '\x7b' :: (dumpO o ++ ['\x7d'])
def dumpA : JArr → List Char
  | .nil => []
  | .cons h .nil => dumpJ h
  | .cons h t => dumpJ h ++ (',' :: ' ' :: dumpA t)
def dumpO : JObj → List Char
  | .nil => []
  | .cons k v .nil => '"' :: (escString k.data ++ ('"' :: ':' :: ' ' :: dumpJ v))
  | .cons k v t => '"' :: (escString k.data ++
      ('"' :: ':' :: ' ' :: (dumpJ v ++ (',' :: ' ' :: dumpO t))))
end

/-- `json.dumps` with its default separators. -/
def dumps (j : Json) : String := String.mk (dumpJ j)

def isWs (c : Char) : Bool :=
  c = ' ' ∨ c = '\t' ∨ c = '\n' ∨ c = '\r'

def skipWs : List Char → List Char
  | [] => []
  | c :: t => if isWs c then skipWs t else c :: t

def unesc (c : Char) : Option Char :=
  if c = '"' then some '"'
  else if c = '\\' then some '\\'
  else if c = '/' then some '/'
  else if c = 'n' then some '\n'
  else if c = 'r' then some '\r'
  else if c = 't' then some '\t'
  else if c = 'b' then some '\x08'
  else if c = 'f' then some '\x0c'
  else none

/-- Parse the body of a JSON string (the opening quote already consumed),
up to and including the closing quote. -/
def parseStr : List Char → Option (List Char × List Char)
  | [] => none
  | c :: t =>
    if c = '"' then some ([], t)
    else if c = '\\' then
      match t with
      | [] => none
      | e :: t2 =>
        match unesc e, parseStr t2 with
        | some d, some (s, r) => some (d :: s, r)
        | _, _ => none
    else
      match parseStr t with
      | some (s, r) => some (c :: s, r)
      | none => none

def parseDigits : List Char → Nat → Nat × List Char
  | [], acc => (acc, [])
  | c :: t, acc =>
    if c.isDigit then parseDigits t (acc * 10 + (c.toNat - 48))
    else (acc, c :: t)

def parseNum : List Char → Option (Int × List Char)
  | [] => none
  | c :: t =>
    if c = '-' then
      match t with
      | [] => none
      | d :: t2 =>
        if d.isDigit then
          some (-((parseDigits (d :: t2) 0).1 : Int), (parseDigits (d :: t2) 0).2)
        else none
    else if c.isDigit then
      some (((parseDigits (c :: t) 0).1 : Int), (parseDigits (c :: t) 0).2)
    else none

/-- Consume an expected literal token. -/
def eatTok : List Char → List Char → Option (List Char)
  | [], cs => some cs
  | _ :: _, [] => none
  | c :: t, d :: cs => if c = d then eatTok t cs else none

mutual
def parseVal : Nat → List Char → Option (Json × List Char)
  | 0, _ => none
  | fuel + 1, cs =>
    match skipWs cs with
    | [] => none
    | c :: t =>
      if c = 'n' then
        match eatTok ['u', 'l', 'l'] t with
        | some r => some (.null, r)
        | none => none
      else if c = 't' then
        match eatTok ['r', 'u', 'e'] t with
        | some r => some (.bool true, r)
        | none => none
      else if c = 'f' then
        match eatTok ['a', 'l', 's', 'e'] t with
        | some r => some (.bool false, r)
        | none => none
      else if c = '"' then
        match parseStr t with
        | some (s, r) => some (.str (String.mk s), r)
        | none => none
      else if c = '[' then
        match skipWs t with
        | [] => none
        | d :: r =>
          if d = ']' then some (.arr .nil, r)
          else
            match parseArr fuel (d :: r) with
            | some (a, r2) => some (.arr a, r2)
            | none => none
      else if c = '\x7b' then
        match skipWs t with
        | [] => none
        | d :: r =>
          if d = '\x7d' then some (.obj .nil, r)
          else
            match parseObj fuel (d :: r) with
            | some (o, r2) => some (.obj o, r2)
            | none => none
      else
        match parseNum (c :: t) with
        | some (n, r) => some (.num n, r)
        | none => none
def parseArr : Nat → List Char → Option (JArr × List Char)
  | 0, _ => none
  | fuel + 1, cs =>
    match parseVal fuel cs with
    | none => none
    | some (v, r) =>
      match skipWs r with
      | [] => none
      | d :: r2 =>
        if d = ',' then
          match parseArr fuel (skipWs r2) with
          | some (a, r3) => some (.cons v a, r3)
          | none => none
        else if d = ']' then some (.cons v .nil, r2)
        else none
def parseObj : Nat → List Char → Option (JObj × List Char)
  | 0, _ => none
  | fuel + 1, cs =>
    match skipWs cs with
    | [] => none
    | c :: t =>
      if c = '"' then
        match parseStr t with
        | none => none
        | some (k, r) =>
          match skipWs r with
          | [] => none
          | d :: r2 =>
            if d = ':' then
              match parseVal fuel (skipWs r2) with
              | none => none
              | some (v, r3) =>
                match skipWs r3 with
                | [] => none
                | e :: r4 =>
                  if e = ',' then
                    match parseObj fuel r4 with
                    | some (o, r5) => some (.cons (String.mk k) v o, r5)
                    | none => none
                  else if e = '\x7d' then some (.cons (String.mk k) v .nil, r4)
                  else none
            else none
      else none
end

/-- `json.loads`: parse one JSON value; trailing content other than
whitespace is an error. -/
def loads (s : String) : Option Json :=
  match parseVal (s.length + 1) s.data with
  | some (j, r) => if skipWs r = [] then some j else none
  | none => none

/-- `(json.dumps(message) + '\n').encode()`, the framing used by
`NetworkClient._send_loop` and `ClientHandler.send`. -/
def encode (env : Json) : String := String.mk (dumpJ env ++ ['\n'])

/-- `buffer.split('\n', 1)`: split off the first newline-terminated frame,
or return the buffer unchanged when no delimiter is present. -/
def splitNl : List Char → Option (List Char × List Char)
  | [] => none
  | c :: t =>
    if c = '\n' then some ([], t)
    else
      match splitNl t with
      | some (f, r) => some (c :: f, r)
      | none => none

/-- One `decode` step of the receiver: take the first complete frame out of
the buffer and `json.loads` it; with no delimiter the buffer is left
intact. -/
def decode (buffer : String) : Option Json × String :=
  match splitNl buffer.data with
  | none => (none, buffer)
  | some (f, r) => (loads (String.mk f), String.mk r)

/-- The receiver loop shared by `NetworkClient._receive_loop` and
`ClientHandler.process_message`: repeatedly split complete frames off the
buffer; each frame that parses as JSON is dispatched in order, a malformed
frame is dropped and the loop continues with the rest of the buffer. -/
def drainFrames (buf : List Char) : List Json × List Char :=
  match h : splitNl buf with
  | none => ([], buf)
  | some (f, r) =>
    match loads (String.mk f) with
    | some j =>
      let p := drainFrames r
      (j :: p.1, p.2)
    | none => drainFrames r
termination_by buf.length
decreasing_by
  all_goals
  have key : ∀ (b fb rb : List Char), splitNl b = some (fb, rb) →
      rb.length < b.length := by
    intro b
    induction b with
    | nil =>
      intro fb rb hh
      simp [splitNl] at hh
    | cons c t ih =>
      intro fb rb hh
      simp only [splitNl] at hh
      by_cases hc : c = '\n'
      · rw [if_pos hc] at hh
        simp only [Option.some.injEq, Prod.mk.injEq] at hh
        obtain ⟨_, h2⟩ := hh
        subst h2
        simp
      · rw [if_neg hc] at hh
        cases hsp : splitNl t with
        | none =>
          simp only [hsp] at hh
          cases hh
        | some p =>
          obtain ⟨f2, r2⟩ := p
          simp only [hsp, Option.some.injEq, Prod.mk.injEq] at hh
          obtain ⟨_, h2⟩ := hh
          subst h2
          exact Nat.lt_succ_of_lt (ih f2 r2 hsp)
  exact key buf f r h

/-- The tails produced while decomposing a dump never begin with a digit,
so number parsing stops exactly at the frame boundary. -/
def goodTail (r : List Char) : Bool :=
  match r with
  | [] => true
  | c :: _ => !c.isDigit

mutual
def sizeJ : Json → Nat
  | .null => 1
  | .bool _ => 1
  | .num _ => 1
  | .str _ => 1
  | .arr a => sizeA a + 1
  | .obj o => sizeO o + 1
def sizeA : JArr → Nat
  | .nil => 0
  | .cons h t => sizeJ h + sizeA t + 1
def sizeO : JObj → Nat
  | .nil => 0
  | .cons _ v t => sizeJ v + sizeO t + 1
end

theorem alookup_aset_self {β : Type} (m : List (Nat × β)) (k : Nat) (v : β) :
    alookup (aset m k v) k = some v := by
  induction m with
  | nil => simp [aset, alookup]
  | cons h t ih =>
    obtain ⟨k0, v0⟩ := h
    by_cases hk : k0 = k
    · subst hk; simp [aset, alookup]
    · simp [aset, alookup, hk, ih]

theorem alookup_aset_ne {β : Type} (m : List (Nat × β)) (k k' : Nat) (v : β)
    (h : k ≠ k') : alookup (aset m k v) k' = alookup m k' := by
  induction m with
  | nil => simp [aset, alookup, h]
  | cons hd t ih =>
    obtain ⟨k0, v0⟩ := hd
    by_cases hk : k0 = k
    · subst hk; simp [aset, alookup, h]
    · simp [aset, alookup, hk, ih]

theorem alookup_aerase_self {β : Type} (m : List (Nat × β)) (k : Nat) :
    alookup (aerase m k) k = none := by
  induction m with
  | nil => simp [aerase, alookup]
  | cons hd t ih =>
    obtain ⟨k0, v0⟩ := hd
    by_cases hk : k0 = k
    · subst hk; simpa [aerase, alookup] using ih
    · simp [aerase, alookup, hk, ih]

theorem alookup_aerase_ne {β : Type} (m : List (Nat × β)) (k k' : Nat)
    (h : k ≠ k') : alookup (aerase m k) k' = alookup m k' := by
  induction m with
  | nil => simp [aerase, alookup]
  | cons hd t ih =>
    obtain ⟨k0, v0⟩ := hd
    by_cases hk : k0 = k
    · subst hk; simp [aerase, alookup, h, ih]
    · by_cases hk' : k0 = k'
      · subst hk'; simp [aerase, alookup, hk]
      · simp [aerase, alookup, hk, hk', ih]

theorem aerase_aerase_self {β : Type} (m : List (Nat × β)) (k : Nat) :
    aerase (aerase m k) k = aerase m k := by
  induction m with
  | nil => simp [aerase]
  | cons hd t ih =>
    obtain ⟨k0, v0⟩ := hd
    by_cases hk : k0 = k
    · subst hk; simp [aerase, ih]
    · simp [aerase, hk, ih]

/-- A fresh key is appended at the end by `aset`. -/
theorem aset_fresh {β : Type} (m : List (Nat × β)) (k : Nat) (v : β)
    (h : ∀ p ∈ m, p.1 ≠ k) : aset m k v = m ++ [(k, v)] := by
  induction m with
  | nil => simp [aset]
  | cons hd t ih =>
    obtain ⟨k0, v0⟩ := hd
    have hk0 : k0 ≠ k := h (k0, v0) (List.mem_cons_self _ _)
    simp only [aset, if_neg hk0, List.cons_append, List.cons.injEq, true_and]
    exact ih (fun p hp => h p (List.mem_cons_of_mem _ hp))

/-! ## Claim C3: out-of-turn / vanished-room battle actions -/
/-- Claim C3 counterexample.  A `BATTLE_ACTION` from the participant whose
side is not `current_turn` relays no envelope, but it does NOT leave every
field of the room record unchanged: the source refreshes
`battle["last_activity"]` before the turn check, so the stored record
changes.  Concretely: battle 0 between clients 1 and 2 with
`current_turn = player1` and `last_activity = 0`; client 2 acts at time 9. -/
theorem c3_counterexample :
    let cli1 : Client := { initClient with in_battle := true, battle_id := some 0 }
    let cli2 : Client := { initClient with in_battle := true, battle_id := some 0 }
    let b0 : Battle := { id := 0, player1 := 1, player2 := 2,
                         creature1 := some 5, creature2 := some 6,
                         current_turn := Side.player1,
                         start_time := 0, last_activity := 0 }
    let st0 : ServerState := { clients := [(1, cli1), (2, cli2)], lobby := [],
                               battles := [(0, b0)], parties := [],
                               nextId := 3, outbox := [] }
    let st' := serverStep st0 (Event.battleAction 2 0 9)
    st'.outbox = [] ∧
    (alookup st'.battles 0).map Battle.last_activity = some 9 ∧
    (alookup st0.battles 0).map Battle.last_activity = some 0 ∧
    st'.battles ≠ st0.battles := by
  decide

/-- Claim C3 (amended): a `BATTLE_ACTION` referencing a room id that no
longer exists leaves the state entirely unchanged; one submitted by the
participant whose side does not equal `current_turn` relays no envelope and
leaves every field of the room record unchanged except `last_activity`,
which is refreshed to the action's arrival time (and `current_turn` in
particular keeps its prior value). -/
theorem c3_amended :
    (∀ bid pid idx now st, alookup st.battles bid = none →
      process_battle_action bid pid idx now st = st) ∧
    (∀ bid pid idx now st b, alookup st.battles bid = some b →
      (if pid = b.player1 then Side.player1 else Side.player2) ≠ b.current_turn →
      process_battle_action bid pid idx now st =
        { st with battles := aset st.battles bid { b with last_activity := now } }) := by
  constructor
  · intro bid pid idx now st h
    simp [process_battle_action, h]
  · intro bid pid idx now st b h hturn
    simp only [process_battle_action, h]
    have : ({ b with last_activity := now } : Battle).current_turn = b.current_turn := rfl
    simp [this, Ne.symm hturn]

/-- Witness for `c3_amended`: both conjuncts discharged at concrete inputs
(the empty battle table; a battle whose turn is `player1` acted on by
`player2`). -/
theorem c3_amended_witness :
    let b0 : Battle := { id := 0, player1 := 1, player2 := 2,
                         creature1 := none, creature2 := none,
                         current_turn := Side.player1,
                         start_time := 0, last_activity := 0 }
    let st0 : ServerState := { clients := [], lobby := [], battles := [(0, b0)],
                               parties := [], nextId := 3, outbox := [] }
    process_battle_action 7 1 0 4 initState = initState ∧
    process_battle_action 0 2 0 9 st0 =
      { st0 with battles := aset st0.battles 0 { b0 with last_activity := 9 } } := by
  refine ⟨c3_amended.1 7 1 0 4 initState (by decide), c3_amended.2 0 2 0 9 _ _ (by decide) (by decide)⟩

/-! ## Claim C6: joinParty failure conditions -/
theorem broadcast_adventure_update_parties (aid now : Nat) (st : ServerState) :
    (broadcast_adventure_update aid now st).parties = st.parties := by
  unfold broadcast_adventure_update
  cases alookup st.parties aid <;> rfl

theorem broadcast_adventure_start_parties (aid now : Nat) (st : ServerState) :
    (broadcast_adventure_start aid now st).parties = st.parties := by
  unfold broadcast_adventure_start
  cases alookup st.parties aid <;> rfl

/-- Claim C6 counterexample.  The failure result does not distinguish `Full`
from `NotWaiting`: joining a waiting party that already has four members
and joining an active one-member party yield the identical observable
outcome — the same `False` return and the same single
`ADVENTURE_JOIN_FAILED` envelope with the fixed message
`"Failed to join adventure party"`. -/
theorem c6_counterexample :
    let pFull : Party := { id := 0, host := 1, members := [1, 2, 3, 4],
                           creatures := [none, none, none, none],
                           usernames := ["a", "b", "c", "d"],
                           state := PartyState.waiting,
                           creation_time := 0, last_activity := 0 }
    let pActive : Party := { id := 0, host := 1, members := [1],
                             creatures := [none], usernames := ["a"],
                             state := PartyState.active,
                             creation_time := 0, last_activity := 0 }
    let stF : ServerState := { clients := [(9, initClient)], lobby := [],
                               battles := [], parties := [(0, pFull)],
                               nextId := 10, outbox := [] }
    let stA : ServerState := { clients := [(9, initClient)], lobby := [],
                               battles := [], parties := [(0, pActive)],
                               nextId := 10, outbox := [] }
    (join_adventure_party 0 9 (some 7) "u" 5 stF).1 = false ∧
    (join_adventure_party 0 9 (some 7) "u" 5 stA).1 = false ∧
    (serverStep stF (Event.joinAdventure 9 0 7 5)).outbox =
      [(9, Msg.ADVENTURE_JOIN_FAILED 0 "Failed to join adventure party")] ∧
    (serverStep stA (Event.joinAdventure 9 0 7 5)).outbox =
      [(9, Msg.ADVENTURE_JOIN_FAILED 0 "Failed to join adventure party")] := by
  decide

/-- `join_adventure_party` returns `False` exactly for an unknown room id,
a room with 4 members, or a room no longer `waiting`. -/
theorem join_fail_iff (aid pid : Nat) (cr : Option Creature) (un : String)
    (now : Nat) (st : ServerState) :
    (join_adventure_party aid pid cr un now st).1 = false ↔
      alookup st.parties aid = none ∨
      ∃ p, alookup st.parties aid = some p ∧
        (4 ≤ p.members.length ∨ p.state ≠ PartyState.waiting) := by
  unfold join_adventure_party
  cases h : alookup st.parties aid with
  | none => simp
  | some p =>
    by_cases hfull : 4 ≤ p.members.length
    · simp [hfull]
    · by_cases hw : p.state = PartyState.waiting
      · have hne : ¬ p.state ≠ PartyState.waiting := by simp [hw]
        simp only [if_neg hfull, if_neg hne]
        split <;> simp [hfull, hw]
      · simp [hfull, hw]

/-- A failed join leaves the server state entirely unchanged. -/
theorem join_fail_frame (aid pid : Nat) (cr : Option Creature) (un : String)
    (now : Nat) (st : ServerState)
    (hf : (join_adventure_party aid pid cr un now st).1 = false) :
    (join_adventure_party aid pid cr un now st).2 = st := by
  unfold join_adventure_party at hf ⊢
  cases h : alookup st.parties aid with
  | none => rfl
  | some p =>
    rw [h] at hf
    by_cases hfull : 4 ≤ p.members.length
    · simp [hfull]
    · by_cases hw : p.state = PartyState.waiting
      · exfalso
        have hne : ¬ p.state ≠ PartyState.waiting := by simp [hw]
        simp only [if_neg hfull, if_neg hne] at hf
        split at hf <;> simp_all
      · simp [hfull, hw]

/-- A join on a known, non-full, waiting room succeeds and appends the
member's entries to the three parallel lists. -/
theorem join_success (aid pid : Nat) (cr : Option Creature) (un : String)
    (now : Nat) (st : ServerState) (p : Party)
    (h : alookup st.parties aid = some p) (hlen : p.members.length < 4)
    (hw : p.state = PartyState.waiting) :
    (join_adventure_party aid pid cr un now st).1 = true ∧
    ∃ p', alookup (join_adventure_party aid pid cr un now st).2.parties aid = some p' ∧
      p'.members = p.members ++ [pid] ∧
      p'.creatures = p.creatures ++ [cr] ∧
      p'.usernames = p.usernames ++ [un] := by
  have hfull : ¬ 4 ≤ p.members.length := by omega
  have hne : ¬ p.state ≠ PartyState.waiting := by simp [hw]
  unfold join_adventure_party
  simp only [h, if_neg hfull, if_neg hne]
  split
  · refine ⟨rfl, { p with
      members := p.members ++ [pid],
      creatures := p.creatures ++ [cr],
      usernames := p.usernames ++ [un],
      last_activity := now,
      state := PartyState.active }, ?_, rfl, rfl, rfl⟩
    simp [broadcast_adventure_start_parties, broadcast_adventure_update_parties,
      alookup_aset_self]
  · refine ⟨rfl, { p with
      members := p.members ++ [pid],
      creatures := p.creatures ++ [cr],
      usernames := p.usernames ++ [un],
      last_activity := now }, ?_, rfl, rfl, rfl⟩
    simp [broadcast_adventure_update_parties, alookup_aset_self]

/-- On any of the three failure causes, the `JOIN_ADVENTURE` handler sends
the joining client exactly one `ADVENTURE_JOIN_FAILED` envelope with the
fixed message. -/
theorem handle_join_adventure_fail_outbox (pid aid : Nat) (cr : Creature)
    (now : Nat) (st : ServerState) (c : Client)
    (hc : alookup st.clients pid = some c)
    (hfail : alookup st.parties aid = none ∨
      ∃ p, alookup st.parties aid = some p ∧
        (4 ≤ p.members.length ∨ p.state ≠ PartyState.waiting)) :
    (handle_join_adventure pid aid cr now st).outbox =
      st.outbox ++ [(pid, Msg.ADVENTURE_JOIN_FAILED aid
        "Failed to join adventure party")] := by
  unfold handle_join_adventure
  simp only [hc]
  have hfail0 : (join_adventure_party aid pid (some cr)
      ({ c with creature := some cr } : Client).username now
      { st with clients := aset st.clients pid ({ c with creature := some cr }) }).1
      = false := by
    rw [join_fail_iff]
    exact hfail
  simp only [hfail0, Bool.false_eq_true, if_false]
  rw [join_fail_frame _ _ _ _ _ _ hfail0]
  rfl

/-- Claim C6 (amended): `join_adventure_party` fails — returning `False`,
leaving the server state (in particular the party's members, creatures,
usernames and state) entirely unchanged, and at the handler level causing a
single `ADVENTURE_JOIN_FAILED` envelope with the fixed message
`"Failed to join adventure party"` — exactly when the room id is unknown,
the room already has 4 members, or the room's state is not `waiting`; all
three failure causes produce the same return value and the same envelope
(they differ only in the server-side log line, so the failure does NOT
distinguish `Full` from `NotWaiting`).  In all other cases it succeeds and
appends the member. -/
theorem c6_amended :
    (∀ aid pid cr un now st,
      (join_adventure_party aid pid cr un now st).1 = false ↔
        alookup st.parties aid = none ∨
        ∃ p, alookup st.parties aid = some p ∧
          (4 ≤ p.members.length ∨ p.state ≠ PartyState.waiting)) ∧
    (∀ aid pid cr un now st,
      (join_adventure_party aid pid cr un now st).1 = false →
      (join_adventure_party aid pid cr un now st).2 = st) ∧
    (∀ aid pid cr un now st p, alookup st.parties aid = some p →
      p.members.length < 4 → p.state = PartyState.waiting →
      (join_adventure_party aid pid cr un now st).1 = true ∧
      ∃ p', alookup (join_adventure_party aid pid cr un now st).2.parties aid = some p' ∧
        p'.members = p.members ++ [pid] ∧
        p'.creatures = p.creatures ++ [cr] ∧
        p'.usernames = p.usernames ++ [un]) ∧
    (∀ pid aid cr now st c, alookup st.clients pid = some c →
      (alookup st.parties aid = none ∨
        ∃ p, alookup st.parties aid = some p ∧
          (4 ≤ p.members.length ∨ p.state ≠ PartyState.waiting)) →
      (handle_join_adventure pid aid cr now st).outbox =
        st.outbox ++ [(pid, Msg.ADVENTURE_JOIN_FAILED aid
          "Failed to join adventure party")]) := by
  exact ⟨join_fail_iff, join_fail_frame, join_success,
    fun pid aid cr now st c hc hfail =>
      handle_join_adventure_fail_outbox pid aid cr now st c hc hfail⟩

/-- Witness for `c6_amended`: all four conjuncts applied at concrete
inputs (unknown room 5; a 1-member waiting room 0). -/
theorem c6_amended_witness :
    let pW : Party := { id := 0, host := 1, members := [1], creatures := [none],
                        usernames := ["a"], state := PartyState.waiting,
                        creation_time := 0, last_activity := 0 }
    let stW : ServerState := { clients := [(9, initClient)], lobby := [],
                               battles := [], parties := [(0, pW)],
                               nextId := 10, outbox := [] }
    ((join_adventure_party 5 9 none "u" 0 stW).1 = false) ∧
    ((join_adventure_party 5 9 none "u" 0 stW).2 = stW) ∧
    ((join_adventure_party 0 9 none "u" 3 stW).1 = true) ∧
    ((handle_join_adventure 9 5 7 0 stW).outbox =
      [(9, Msg.ADVENTURE_JOIN_FAILED 5 "Failed to join adventure party")]) := by
  intro pW stW
  refine ⟨?_, ?_, ?_, ?_⟩
  · exact (c6_amended.1 5 9 none "u" 0 stW).mpr (Or.inl (by decide))
  · exact c6_amended.2.1 5 9 none "u" 0 stW
      ((c6_amended.1 5 9 none "u" 0 stW).mpr (Or.inl (by decide)))
  · exact (c6_amended.2.2.1 0 9 none "u" 3 stW pW (by decide) (by decide) (by decide)).1
  · simpa using c6_amended.2.2.2 9 5 7 0 stW initClient (by decide) (Or.inl (by decide))

/-! ## Claim C7: leaving an adventure party -/
theorem aerase_mem_ne {β : Type} (m : List (Nat × β)) (k : Nat) (q : Nat × β)
    (h : q ∈ aerase m k) : q.1 ≠ k := by
  induction m with
  | nil => simp [aerase] at h
  | cons hd t ih =>
    obtain ⟨k0, v0⟩ := hd
    by_cases hk : k0 = k
    · subst hk; exact ih (by simpa [aerase] using h)
    · rcases (by simpa [aerase, hk] using h : q = (k0, v0) ∨ q ∈ aerase t k) with h1 | h1
      · subst h1; exact hk
      · exact ih h1

theorem mem_get_adventure_parties (st : ServerState) (info : PartyInfo)
    (h : info ∈ get_adventure_parties st) :
    ∃ p, (info.id, p) ∈ st.parties ∧ p.state = PartyState.waiting := by
  unfold get_adventure_parties at h
  rcases List.mem_filterMap.mp h with ⟨q, hq, hf⟩
  by_cases hw : q.2.state = PartyState.waiting
  · rw [if_pos hw] at hf
    have : _ = info := Option.some.inj hf
    subst this
    exact ⟨q.2, by simpa using hq, hw⟩
  · rw [if_neg hw] at hf
    cases hf

theorem broadcast_adventure_update_eq (aid now : Nat) (st : ServerState)
    (p : Party) (h : alookup st.parties aid = some p) :
    broadcast_adventure_update aid now st =
      { st with outbox := st.outbox ++
          ((p.members.filter (fun q => (alookup st.clients q).isSome)).map
            (fun q => (q, Msg.ADVENTURE_PARTY_UPDATE aid p.members p.creatures
              p.usernames p.host p.state now))) } := by
  unfold broadcast_adventure_update
  rw [h]

/-- Claim C7: removing a member from an adventure party deletes exactly that
member's entries from the three parallel lists; if the departing member was
the host and members remain, the first remaining member (stable order)
becomes host and every remaining registered member is sent an
`ADVENTURE_PARTY_UPDATE` carrying the new host id; if no members remain the
room is destroyed and no longer appears in the `GET_ADVENTURE_PARTIES`
listing, which only ever exposes rooms in state `waiting`. -/
theorem c7_leave_party :
    (∀ st aid pid now p, alookup st.parties aid = some p → pid ∈ p.members →
      (p.members.eraseIdx (p.members.indexOf pid) = [] →
        alookup (remove_from_adventure aid pid now st).parties aid = none ∧
        ∀ info ∈ get_adventure_parties (remove_from_adventure aid pid now st),
          info.id ≠ aid) ∧
      (p.members.eraseIdx (p.members.indexOf pid) ≠ [] →
        ∃ p', alookup (remove_from_adventure aid pid now st).parties aid = some p' ∧
          p'.members = p.members.eraseIdx (p.members.indexOf pid) ∧
          p'.creatures = p.creatures.eraseIdx (p.members.indexOf pid) ∧
          p'.usernames = p.usernames.eraseIdx (p.members.indexOf pid) ∧
          p'.state = p.state ∧
          p'.host = (if pid = p.host
            then (p.members.eraseIdx (p.members.indexOf pid)).headD p.host
            else p.host) ∧
          (remove_from_adventure aid pid now st).outbox = st.outbox ++
            ((p'.members.filter (fun q => (alookup st.clients q).isSome)).map
              (fun q => (q, Msg.ADVENTURE_PARTY_UPDATE aid p'.members p'.creatures
                p'.usernames p'.host p'.state now))))) ∧
    (∀ st info, info ∈ get_adventure_parties st →
      ∃ p, (info.id, p) ∈ st.parties ∧ p.state = PartyState.waiting) := by
  constructor
  · intro st aid pid now p h hmem
    constructor
    · intro hempty
      unfold remove_from_adventure
      simp only [h, if_pos hmem, hempty, if_pos rfl]
      constructor
      · exact alookup_aerase_self _ _
      · intro info hinfo
        rcases mem_get_adventure_parties _ _ hinfo with ⟨q, hq, _⟩
        exact aerase_mem_ne _ _ _ hq
    · intro hne
      unfold remove_from_adventure
      simp only [h, if_pos hmem, if_neg hne]
      by_cases hhost : pid = p.host
      · rw [if_pos hhost]
        refine ⟨{ p with
            members := p.members.eraseIdx (p.members.indexOf pid),
            creatures := p.creatures.eraseIdx (p.members.indexOf pid),
            usernames := p.usernames.eraseIdx (p.members.indexOf pid),
            last_activity := now,
            host := (p.members.eraseIdx (p.members.indexOf pid)).headD p.host },
          ?_, rfl, rfl, rfl, rfl, ?_, ?_⟩
        · rw [broadcast_adventure_update_parties]
          exact alookup_aset_self _ _ _
        · rw [if_pos hhost]
        · rw [broadcast_adventure_update_eq _ _ _ _ (alookup_aset_self _ _ _)]
      · rw [if_neg hhost]
        refine ⟨{ p with
            members := p.members.eraseIdx (p.members.indexOf pid),
            creatures := p.creatures.eraseIdx (p.members.indexOf pid),
            usernames := p.usernames.eraseIdx (p.members.indexOf pid),
            last_activity := now },
          ?_, rfl, rfl, rfl, rfl, ?_, ?_⟩
        · rw [broadcast_adventure_update_parties]
          exact alookup_aset_self _ _ _
        · rw [if_neg hhost]
        · rw [broadcast_adventure_update_eq _ _ _ _ (alookup_aset_self _ _ _)]
  · exact mem_get_adventure_parties

/-- Witness for `c7_leave_party`: host 1 leaves the 2-member party 0
(member 2 is promoted and notified); the only member 7 leaves party 4
(the room is destroyed and vanishes from the listing). -/
theorem c7_leave_party_witness :
    let p2 : Party := { id := 0, host := 1, members := [1, 2],
                        creatures := [none, some 5], usernames := ["a", "b"],
                        state := PartyState.waiting,
                        creation_time := 0, last_activity := 0 }
    let st2 : ServerState := { clients := [(1, initClient), (2, initClient)],
                               lobby := [], battles := [], parties := [(0, p2)],
                               nextId := 3, outbox := [] }
    let p1 : Party := { id := 4, host := 7, members := [7], creatures := [none],
                        usernames := ["c"], state := PartyState.waiting,
                        creation_time := 0, last_activity := 0 }
    let st1 : ServerState := { clients := [(7, initClient)], lobby := [],
                               battles := [], parties := [(4, p1)],
                               nextId := 8, outbox := [] }
    (∃ p', alookup (remove_from_adventure 0 1 9 st2).parties 0 = some p' ∧
      p'.members = p2.members.eraseIdx (p2.members.indexOf 1) ∧
      p'.creatures = p2.creatures.eraseIdx (p2.members.indexOf 1) ∧
      p'.usernames = p2.usernames.eraseIdx (p2.members.indexOf 1) ∧
      p'.state = p2.state ∧
      p'.host = (if 1 = p2.host
        then (p2.members.eraseIdx (p2.members.indexOf 1)).headD p2.host
        else p2.host) ∧
      (remove_from_adventure 0 1 9 st2).outbox = st2.outbox ++
        ((p'.members.filter (fun q => (alookup st2.clients q).isSome)).map
          (fun q => (q, Msg.ADVENTURE_PARTY_UPDATE 0 p'.members p'.creatures
            p'.usernames p'.host p'.state 9)))) ∧
    (alookup (remove_from_adventure 4 7 9 st1).parties 4 = none ∧
      ∀ info ∈ get_adventure_parties (remove_from_adventure 4 7 9 st1),
        info.id ≠ 4) := by
  intro p2 st2 p1 st1
  exact ⟨(c7_leave_party.1 st2 0 1 9 p2 (by decide) (by decide)).2 (by decide),
         (c7_leave_party.1 st1 4 7 9 p1 (by decide) (by decide)).1 (by decide)⟩

/-! ## Frame lemmas: which operations leave the party table untouched -/
theorem send_parties (pid : Nat) (m : Msg) (st : ServerState) :
    (send pid m st).parties = st.parties := rfl

theorem broadcast_lobby_status_parties (now : Nat) (st : ServerState) :
    (broadcast_lobby_status now st).parties = st.parties := rfl

theorem add_to_lobby_parties (pid now : Nat) (st : ServerState) :
    (add_to_lobby pid now st).parties = st.parties := by
  unfold add_to_lobby
  split <;> rfl

theorem remove_from_lobby_parties (pid now : Nat) (st : ServerState) :
    (remove_from_lobby pid now st).parties = st.parties := by
  unfold remove_from_lobby
  split <;> rfl

theorem notify_battle_end_parties (bid : Nat) (winner : Option Side)
    (reason : String) (s : ServerState) (p : Nat) :
    (notify_battle_end bid winner reason s p).parties = s.parties := by
  unfold notify_battle_end
  split
  · rfl
  · split <;> rfl

theorem end_battle_parties (bid : Nat) (ender : Option Nat) (st : ServerState) :
    (end_battle bid ender st).parties = st.parties := by
  unfold end_battle
  cases alookup st.battles bid with
  | none => rfl
  | some b =>
    show (List.foldl _ st [b.player1, b.player2]).parties = st.parties
    simp only [List.foldl]
    rw [notify_battle_end_parties, notify_battle_end_parties]

theorem process_battle_action_parties (bid pid idx now : Nat) (st : ServerState) :
    (process_battle_action bid pid idx now st).parties = st.parties := by
  unfold process_battle_action
  dsimp only
  repeat' split
  all_goals first | rfl | rw [end_battle_parties]

theorem match_players_parties (now : Nat) (st : ServerState) :
    (match_players now st).parties = st.parties := by
  unfold match_players
  dsimp only
  repeat' split
  all_goals first
    | rfl
    | simp only [send_parties, remove_from_lobby_parties]

theorem handle_join_lobby_parties (pid : Nat) (cr : Creature)
    (un : Option String) (now : Nat) (st : ServerState) :
    (handle_join_lobby pid cr un now st).parties = st.parties := by
  unfold handle_join_lobby
  dsimp only
  repeat' split
  all_goals first
    | rfl
    | simp only [send_parties, add_to_lobby_parties]

theorem handle_leave_lobby_parties (pid now : Nat) (st : ServerState) :
    (handle_leave_lobby pid now st).parties = st.parties := by
  unfold handle_leave_lobby
  dsimp only
  repeat' split
  all_goals first
    | rfl
    | simp only [send_parties, remove_from_lobby_parties]

theorem handle_battle_action_parties (pid idx now : Nat) (st : ServerState) :
    (handle_battle_action pid idx now st).parties = st.parties := by
  unfold handle_battle_action
  repeat' split
  all_goals first | rfl | rw [process_battle_action_parties]

theorem handle_get_adventure_parties_parties (pid : Nat) (st : ServerState) :
    (handle_get_adventure_parties pid st).parties = st.parties := by
  unfold handle_get_adventure_parties
  cases alookup st.clients pid <;> rfl

/-! ## How each operation can change a stored party -/
theorem join_adventure_party_parties_cases (jid pid : Nat) (cr : Option Creature)
    (un : String) (now : Nat) (st : ServerState) (aid : Nat) (p' : Party)
    (h : alookup (join_adventure_party jid pid cr un now st).2.parties aid = some p') :
    alookup st.parties aid = some p' ∨
    (aid = jid ∧ ∃ p, alookup st.parties aid = some p ∧
      p.state = PartyState.waiting ∧ p.members.length < 4 ∧
      p'.members = p.members ++ [pid] ∧
      p'.state = (if 2 ≤ p.members.length + 1 then PartyState.active
                  else PartyState.waiting)) := by
  unfold join_adventure_party at h
  cases hj : alookup st.parties jid with
  | none => simp only [hj] at h; exact Or.inl h
  | some p =>
    simp only [hj] at h
    by_cases hfull : 4 ≤ p.members.length
    · rw [if_pos hfull] at h; exact Or.inl h
    · by_cases hw : p.state = PartyState.waiting
      · have hne : ¬ p.state ≠ PartyState.waiting := by simp [hw]
        simp only [if_neg hfull, if_neg hne] at h
        by_cases haid : aid = jid
        · subst haid
          right
          refine ⟨rfl, p, hj, hw, by omega, ?_⟩
          split at h
          · rw [broadcast_adventure_start_parties] at h
            rw [alookup_aset_self] at h
            have hp' := Option.some.inj h
            subst hp'
            constructor
            · rfl
            · rw [if_pos (by simpa using ‹2 ≤ (p.members ++ [pid]).length›)]
          · rw [broadcast_adventure_update_parties, alookup_aset_self] at h
            have hp' := Option.some.inj h
            subst hp'
            constructor
            · rfl
            · rw [if_neg (by simpa using ‹¬ 2 ≤ (p.members ++ [pid]).length›), hw]
        · left
          split at h
          · rw [broadcast_adventure_start_parties] at h
            dsimp only at h
            rw [alookup_aset_ne _ _ _ _ (fun hh => haid hh.symm)] at h
            rw [broadcast_adventure_update_parties] at h
            dsimp only at h
            rw [alookup_aset_ne _ _ _ _ (fun hh => haid hh.symm)] at h
            exact h
          · rw [broadcast_adventure_update_parties] at h
            dsimp only at h
            rw [alookup_aset_ne _ _ _ _ (fun hh => haid hh.symm)] at h
            exact h
      · rw [if_neg hfull, if_pos (by simp [hw])] at h
        exact Or.inl h

theorem remove_from_adventure_parties_cases (aid2 pid now : Nat)
    (st : ServerState) (aid : Nat) (p' : Party)
    (h : alookup (remove_from_adventure aid2 pid now st).parties aid = some p') :
    alookup st.parties aid = some p' ∨
    ∃ p, alookup st.parties aid = some p ∧ p'.state = p.state ∧
      p'.members.length ≤ p.members.length := by
  unfold remove_from_adventure at h
  cases hj : alookup st.parties aid2 with
  | none => simp only [hj] at h; exact Or.inl h
  | some p =>
    simp only [hj] at h
    by_cases hmem : pid ∈ p.members
    · rw [if_pos hmem] at h
      by_cases hemp : p.members.eraseIdx (p.members.indexOf pid) = []
      · rw [if_pos hemp] at h
        dsimp only at h
        by_cases haid : aid = aid2
        · subst haid; rw [alookup_aerase_self] at h; cases h
        · rw [alookup_aerase_ne _ _ _ (fun hh => haid hh.symm)] at h
          exact Or.inl h
      · rw [if_neg hemp] at h
        rw [broadcast_adventure_update_parties] at h
        dsimp only at h
        by_cases haid : aid = aid2
        · subst haid
          rw [alookup_aset_self] at h
          right
          refine ⟨p, hj, ?_⟩
          have hp' := Option.some.inj h
          subst hp'
          constructor
          · split <;> rfl
          · have hlen : (p.members.eraseIdx (p.members.indexOf pid)).length
                ≤ p.members.length := by
              rcases List.length_eraseIdx_le (p.members) (p.members.indexOf pid) with hh
              omega
            split <;> simpa using hlen
        · rw [alookup_aset_ne _ _ _ _ (fun hh => haid hh.symm)] at h
          exact Or.inl h
    · rw [if_neg hmem] at h
      exact Or.inl h

theorem process_adventure_update_parties_cases (aid2 pid d now : Nat)
    (st : ServerState) (aid : Nat) (p' : Party)
    (h : alookup (process_adventure_update aid2 pid d now st).parties aid = some p') :
    alookup st.parties aid = some p' ∨
    ∃ p, alookup st.parties aid = some p ∧ p'.state = p.state ∧
      p'.members.length ≤ p.members.length := by
  unfold process_adventure_update at h
  cases hj : alookup st.parties aid2 with
  | none => simp only [hj] at h; exact Or.inl h
  | some p =>
    simp only [hj] at h
    by_cases hmem : pid ∈ p.members
    · rw [if_pos hmem] at h
      dsimp only at h
      by_cases haid : aid = aid2
      · subst haid
        rw [alookup_aset_self] at h
        have hp' := Option.some.inj h
        subst hp'
        exact Or.inr ⟨p, hj, rfl, le_refl _⟩
      · rw [alookup_aset_ne _ _ _ _ (fun hh => haid hh.symm)] at h
        exact Or.inl h
    · rw [if_neg hmem] at h
      exact Or.inl h

theorem handle_create_adventure_parties_cases (pid : Nat) (cr : Creature)
    (now : Nat) (st : ServerState) (aid : Nat) (p' : Party)
    (h : alookup (handle_create_adventure pid cr now st).parties aid = some p') :
    alookup st.parties aid = some p' ∨
    (aid = st.nextId ∧ p'.members.length = 1 ∧ p'.state = PartyState.waiting) := by
  unfold handle_create_adventure at h
  cases hc : alookup st.clients pid with
  | none => simp only [hc] at h; exact Or.inl h
  | some c =>
    simp only [hc] at h
    unfold create_adventure_party at h
    rw [send_parties] at h
    dsimp only at h
    by_cases haid : aid = st.nextId
    · subst haid
      rw [alookup_aset_self] at h
      have hp' := Option.some.inj h
      subst hp'
      exact Or.inr ⟨rfl, rfl, rfl⟩
    · rw [alookup_aset_ne _ _ _ _ (fun hh => haid hh.symm)] at h
      exact Or.inl h

theorem handle_join_adventure_parties_cases (pid jid : Nat) (cr : Creature)
    (now : Nat) (st : ServerState) (aid : Nat) (p' : Party)
    (h : alookup (handle_join_adventure pid jid cr now st).parties aid = some p') :
    alookup st.parties aid = some p' ∨
    (aid = jid ∧ ∃ p, alookup st.parties aid = some p ∧
      p.state = PartyState.waiting ∧ p.members.length < 4 ∧
      p'.members.length = p.members.length + 1 ∧
      p'.state = (if 2 ≤ p.members.length + 1 then PartyState.active
                  else PartyState.waiting)) := by
  unfold handle_join_adventure at h
  cases hc : alookup st.clients pid with
  | none => simp only [hc] at h; exact Or.inl h
  | some c =>
    simp only [hc] at h
    split at h
    · have := join_adventure_party_parties_cases jid pid (some cr)
        ({ c with creature := some cr } : Client).username now
        { st with clients := aset st.clients pid ({ c with creature := some cr }) }
        aid p' (by exact h)
      rcases this with h1 | ⟨rfl, p, hp, hw, hlt, hm, hs⟩
      · exact Or.inl h1
      · exact Or.inr ⟨rfl, p, hp, hw, hlt, by rw [hm]; simp, hs⟩
    · have := join_adventure_party_parties_cases jid pid (some cr)
        ({ c with creature := some cr } : Client).username now
        { st with clients := aset st.clients pid ({ c with creature := some cr }) }
        aid p' (by exact h)
      rcases this with h1 | ⟨rfl, p, hp, hw, hlt, hm, hs⟩
      · exact Or.inl h1
      · exact Or.inr ⟨rfl, p, hp, hw, hlt, by rw [hm]; simp, hs⟩

theorem clean_up_parties_cases (pid now : Nat) (st : ServerState) (aid : Nat)
    (p' : Party)
    (h : alookup (clean_up pid now st).parties aid = some p') :
    alookup st.parties aid = some p' ∨
    ∃ p, alookup st.parties aid = some p ∧ p'.state = p.state ∧
      p'.members.length ≤ p.members.length := by
  unfold clean_up at h
  cases hc : alookup st.clients pid with
  | none => simp only [hc] at h; exact Or.inl h
  | some c =>
    simp only [hc] at h
    set st1 := (if c.in_lobby = true then remove_from_lobby pid now st else st)
      with hst1
    have hp1 : st1.parties = st.parties := by
      rw [hst1]; split
      · rw [remove_from_lobby_parties]
      · rfl
    set st2 := (match alookup st1.clients pid with
      | none => st1
      | some c1 =>
        if c1.in_battle = true then
          match c1.battle_id with
          | some bid => end_battle bid (some pid) st1
          | none => st1
        else st1) with hst2
    have hp2 : st2.parties = st.parties := by
      rw [hst2]
      cases alookup st1.clients pid with
      | none => exact hp1
      | some c1 =>
        dsimp only
        split
        · cases c1.battle_id with
          | some bid =>
            dsimp only
            rw [end_battle_parties]
            exact hp1
          | none => exact hp1
        · exact hp1
    cases hcc : alookup st2.clients pid with
    | none => simp only [hcc] at h; rw [hp2] at h; exact Or.inl h
    | some c2 =>
      simp only [hcc] at h
      by_cases hadv : c2.in_adventure
      · rw [if_pos hadv] at h
        cases hai : c2.adventure_id with
        | none => simp only [hai] at h; rw [hp2] at h; exact Or.inl h
        | some aid2 =>
          simp only [hai] at h
          rcases remove_from_adventure_parties_cases aid2 pid now st2 aid p' h
            with h1 | ⟨p, hp, hs, hl⟩
          · rw [hp2] at h1; exact Or.inl h1
          · rw [hp2] at hp; exact Or.inr ⟨p, hp, hs, hl⟩
      · rw [if_neg hadv] at h
        rw [hp2] at h
        exact Or.inl h

/-- How one server step can change a stored party record: it is either left
untouched, freshly created (one member, `waiting`, key `nextId`), grown by
one member by a join on a waiting room (becoming `active` when that makes
two), or shrunk with its state preserved. -/
theorem serverStep_parties_cases (st : ServerState) (e : Event) (aid : Nat)
    (p' : Party)
    (h : alookup (serverStep st e).parties aid = some p') :
    alookup st.parties aid = some p' ∨
    (aid = st.nextId ∧ p'.members.length = 1 ∧ p'.state = PartyState.waiting) ∨
    (∃ p, alookup st.parties aid = some p ∧
      p.state = PartyState.waiting ∧ p.members.length < 4 ∧
      p'.members.length = p.members.length + 1 ∧
      p'.state = (if 2 ≤ p.members.length + 1 then PartyState.active
                  else PartyState.waiting)) ∨
    (∃ p, alookup st.parties aid = some p ∧ p'.state = p.state ∧
      p'.members.length ≤ p.members.length) := by
  cases e with
  | connect => exact Or.inl h
  | disconnect pid now =>
    rcases clean_up_parties_cases pid now st aid p' h with h1 | h1
    · exact Or.inl h1
    · exact Or.inr (Or.inr (Or.inr h1))
  | joinLobby pid cr un now =>
    rw [show (serverStep st (Event.joinLobby pid cr un now)).parties
        = st.parties from handle_join_lobby_parties pid cr un now st] at h
    exact Or.inl h
  | leaveLobby pid now =>
    rw [show (serverStep st (Event.leaveLobby pid now)).parties
        = st.parties from handle_leave_lobby_parties pid now st] at h
    exact Or.inl h
  | battleAction pid idx now =>
    rw [show (serverStep st (Event.battleAction pid idx now)).parties
        = st.parties from handle_battle_action_parties pid idx now st] at h
    exact Or.inl h
  | createAdventure pid cr now =>
    rcases handle_create_adventure_parties_cases pid cr now st aid p' h
      with h1 | ⟨h1, h2, h3⟩
    · exact Or.inl h1
    · exact Or.inr (Or.inl ⟨h1, h2, h3⟩)
  | joinAdventure pid jid cr now =>
    rcases handle_join_adventure_parties_cases pid jid cr now st aid p' h
      with h1 | ⟨_, p, hp, hw, hlt, hm, hs⟩
    · exact Or.inl h1
    · exact Or.inr (Or.inr (Or.inl ⟨p, hp, hw, hlt, hm, hs⟩))
  | adventureUpdate pid d now =>
    have h' : alookup (handle_adventure_update pid d now st).parties aid = some p' := h
    unfold handle_adventure_update at h'
    cases hc : alookup st.clients pid with
    | none => simp only [hc] at h'; exact Or.inl h'
    | some c =>
      simp only [hc] at h'
      by_cases hadv : c.in_adventure
      · rw [if_pos hadv] at h'
        cases hai : c.adventure_id with
        | none => simp only [hai] at h'; exact Or.inl h'
        | some aid2 =>
          simp only [hai] at h'
          rcases process_adventure_update_parties_cases aid2 pid d now st aid p' h'
            with h1 | h1
          · exact Or.inl h1
          · exact Or.inr (Or.inr (Or.inr h1))
      · rw [if_neg hadv] at h'
        exact Or.inl h' 
  | getAdventureParties pid =>
    rw [show (serverStep st (Event.getAdventureParties pid)).parties
        = st.parties from handle_get_adventure_parties_parties pid st] at h
    exact Or.inl h
  | matchTick now =>
    rw [show (serverStep st (Event.matchTick now)).parties
        = st.parties from match_players_parties now st] at h
    exact Or.inl h

/-! ## The fresh-id counter never decreases -/
theorem send_nextId (pid : Nat) (m : Msg) (st : ServerState) :
    (send pid m st).nextId = st.nextId := rfl

theorem broadcast_lobby_status_nextId (now : Nat) (st : ServerState) :
    (broadcast_lobby_status now st).nextId = st.nextId := rfl

theorem add_to_lobby_nextId (pid now : Nat) (st : ServerState) :
    (add_to_lobby pid now st).nextId = st.nextId := by
  unfold add_to_lobby
  split <;> rfl

theorem remove_from_lobby_nextId (pid now : Nat) (st : ServerState) :
    (remove_from_lobby pid now st).nextId = st.nextId := by
  unfold remove_from_lobby
  split <;> rfl

theorem notify_battle_end_nextId (bid : Nat) (winner : Option Side)
    (reason : String) (s : ServerState) (p : Nat) :
    (notify_battle_end bid winner reason s p).nextId = s.nextId := by
  unfold notify_battle_end
  split
  · rfl
  · split <;> rfl

theorem end_battle_nextId (bid : Nat) (ender : Option Nat) (st : ServerState) :
    (end_battle bid ender st).nextId = st.nextId := by
  unfold end_battle
  cases alookup st.battles bid with
  | none => rfl
  | some b =>
    show (List.foldl _ st [b.player1, b.player2]).nextId = st.nextId
    simp only [List.foldl]
    rw [notify_battle_end_nextId, notify_battle_end_nextId]

theorem process_battle_action_nextId (bid pid idx now : Nat) (st : ServerState) :
    (process_battle_action bid pid idx now st).nextId = st.nextId := by
  unfold process_battle_action
  dsimp only
  repeat' split
  all_goals first | rfl | rw [end_battle_nextId]

theorem broadcast_adventure_update_nextId (aid now : Nat) (st : ServerState) :
    (broadcast_adventure_update aid now st).nextId = st.nextId := by
  unfold broadcast_adventure_update
  cases alookup st.parties aid <;> rfl

theorem broadcast_adventure_start_nextId (aid now : Nat) (st : ServerState) :
    (broadcast_adventure_start aid now st).nextId = st.nextId := by
  unfold broadcast_adventure_start
  cases alookup st.parties aid <;> rfl

theorem join_adventure_party_nextId (aid pid : Nat) (cr : Option Creature)
    (un : String) (now : Nat) (st : ServerState) :
    (join_adventure_party aid pid cr un now st).2.nextId = st.nextId := by
  unfold join_adventure_party
  cases alookup st.parties aid with
  | none => rfl
  | some p =>
    dsimp only
    split
    · rfl
    · split
      · rfl
      · split
        · simp [broadcast_adventure_start_nextId, broadcast_adventure_update_nextId]
        · simp [broadcast_adventure_update_nextId]

theorem remove_from_adventure_nextId (aid pid now : Nat) (st : ServerState) :
    (remove_from_adventure aid pid now st).nextId = st.nextId := by
  unfold remove_from_adventure
  cases alookup st.parties aid with
  | none => rfl
  | some p =>
    dsimp only
    split
    · split
      · rfl
      · simp [broadcast_adventure_update_nextId]
    · rfl

theorem process_adventure_update_nextId (aid pid d now : Nat) (st : ServerState) :
    (process_adventure_update aid pid d now st).nextId = st.nextId := by
  unfold process_adventure_update
  repeat' split
  all_goals rfl

theorem handle_join_lobby_nextId (pid : Nat) (cr : Creature) (un : Option String)
    (now : Nat) (st : ServerState) :
    (handle_join_lobby pid cr un now st).nextId = st.nextId := by
  unfold handle_join_lobby
  repeat' split
  all_goals first
    | rfl
    | simp only [send_nextId, add_to_lobby_nextId]

theorem handle_leave_lobby_nextId (pid now : Nat) (st : ServerState) :
    (handle_leave_lobby pid now st).nextId = st.nextId := by
  unfold handle_leave_lobby
  repeat' split
  all_goals first
    | rfl
    | simp only [send_nextId, remove_from_lobby_nextId]

theorem handle_battle_action_nextId (pid idx now : Nat) (st : ServerState) :
    (handle_battle_action pid idx now st).nextId = st.nextId := by
  unfold handle_battle_action
  repeat' split
  all_goals first | rfl | rw [process_battle_action_nextId]

theorem handle_join_adventure_nextId (pid aid : Nat) (cr : Creature) (now : Nat)
    (st : ServerState) :
    (handle_join_adventure pid aid cr now st).nextId = st.nextId := by
  unfold handle_join_adventure
  cases alookup st.clients pid with
  | none => rfl
  | some c =>
    dsimp only
    split
    · simp [send_nextId, join_adventure_party_nextId]
    · simp [send_nextId, join_adventure_party_nextId]

theorem handle_adventure_update_nextId (pid d now : Nat) (st : ServerState) :
    (handle_adventure_update pid d now st).nextId = st.nextId := by
  unfold handle_adventure_update
  repeat' split
  all_goals first | rfl | rw [process_adventure_update_nextId]

theorem handle_get_adventure_parties_nextId (pid : Nat) (st : ServerState) :
    (handle_get_adventure_parties pid st).nextId = st.nextId := by
  unfold handle_get_adventure_parties
  cases alookup st.clients pid <;> rfl

theorem clean_up_nextId (pid now : Nat) (st : ServerState) :
    (clean_up pid now st).nextId = st.nextId := by
  unfold clean_up
  cases alookup st.clients pid with
  | none => rfl
  | some c =>
    dsimp only
    set st1 := (if c.in_lobby = true then remove_from_lobby pid now st else st)
      with hst1
    have h1 : st1.nextId = st.nextId := by
      rw [hst1]; split
      · rw [remove_from_lobby_nextId]
      · rfl
    set st2 := (match alookup st1.clients pid with
      | none => st1
      | some c1 =>
        if c1.in_battle = true then
          match c1.battle_id with
          | some bid => end_battle bid (some pid) st1
          | none => st1
        else st1) with hst2
    have h2 : st2.nextId = st.nextId := by
      rw [hst2]
      cases alookup st1.clients pid with
      | none => exact h1
      | some c1 =>
        dsimp only
        split
        · cases c1.battle_id with
          | some bid =>
            dsimp only
            rw [end_battle_nextId]
            exact h1
          | none => exact h1
        · exact h1
    cases alookup st2.clients pid with
    | none => exact h2
    | some c2 =>
      dsimp only
      split
      · cases c2.adventure_id with
        | some aid =>
          dsimp only
          rw [remove_from_adventure_nextId]
          exact h2
        | none => exact h2
      · exact h2

theorem serverStep_nextId_mono (st : ServerState) (e : Event) :
    st.nextId ≤ (serverStep st e).nextId := by
  cases e with
  | connect => exact Nat.le_succ _
  | disconnect pid now => exact le_of_eq (clean_up_nextId pid now st).symm
  | joinLobby pid cr un now =>
    exact le_of_eq (handle_join_lobby_nextId pid cr un now st).symm
  | leaveLobby pid now => exact le_of_eq (handle_leave_lobby_nextId pid now st).symm
  | battleAction pid idx now =>
    exact le_of_eq (handle_battle_action_nextId pid idx now st).symm
  | createAdventure pid cr now =>
    show st.nextId ≤ (handle_create_adventure pid cr now st).nextId
    unfold handle_create_adventure
    cases alookup st.clients pid with
    | none => exact le_refl _
    | some c =>
      dsimp only
      unfold create_adventure_party
      simp [send_nextId]
  | joinAdventure pid aid cr now =>
    exact le_of_eq (handle_join_adventure_nextId pid aid cr now st).symm
  | adventureUpdate pid d now =>
    exact le_of_eq (handle_adventure_update_nextId pid d now st).symm
  | getAdventureParties pid =>
    exact le_of_eq (handle_get_adventure_parties_nextId pid st).symm
  | matchTick now =>
    show st.nextId ≤ (match_players now st).nextId
    unfold match_players
    repeat' split
    all_goals
      simp [send_nextId, remove_from_lobby_nextId]

/-! ## Claim C4: party activation -/
theorem broadcast_adventure_start_eq (aid now : Nat) (st : ServerState)
    (p : Party) (h : alookup st.parties aid = some p) :
    broadcast_adventure_start aid now st =
      { st with outbox := st.outbox ++
          ((p.members.filter (fun q => (alookup st.clients q).isSome)).map
            (fun q => (q, Msg.ADVENTURE_START aid p.members p.creatures
              p.usernames p.host now))) } := by
  unfold broadcast_adventure_start
  rw [h]

/-- If every party stored under `aid` is `active` and `aid` is an
already-consumed id, this remains so after one server step. -/
theorem serverStep_active_preserved (st : ServerState) (e : Event) (aid : Nat)
    (hfresh : aid < st.nextId)
    (hact : ∀ p, alookup st.parties aid = some p → p.state = PartyState.active) :
    ∀ p', alookup (serverStep st e).parties aid = some p' →
      p'.state = PartyState.active := by
  intro p' h
  rcases serverStep_parties_cases st e aid p' h with
    h1 | ⟨h1, _, _⟩ | ⟨p, hp, hw, _, _, _⟩ | ⟨p, hp, hs, _⟩
  · exact hact p' h1
  · omega
  · have := hact p hp
    rw [this] at hw
    cases hw
  · rw [hs]
    exact hact p hp

/-- Over any run, a party that is `active` stays `active` for as long as
its room id stays in the table: the `waiting → active` transition is
never reverted. -/
theorem runEvents_active_preserved (es : List Event) (st : ServerState)
    (aid : Nat) (hfresh : aid < st.nextId)
    (hact : ∀ p, alookup st.parties aid = some p → p.state = PartyState.active) :
    ∀ p', alookup (runEvents st es).parties aid = some p' →
      p'.state = PartyState.active := by
  induction es generalizing st with
  | nil => exact hact
  | cons e es ih =>
    intro p' h
    exact ih (serverStep st e)
      (lt_of_lt_of_le hfresh (serverStep_nextId_mono st e))
      (serverStep_active_preserved st e aid hfresh hact) p' h

/-- When the second member `j` joins a waiting party `[h]`, the join
succeeds, the party becomes `active` with members `[h, j]`, and the outbox
gains exactly one `ADVENTURE_PARTY_UPDATE` followed by one
`ADVENTURE_START` for each of the two members. -/
theorem second_join_starts (aid j : Nat) (cr : Option Creature) (un : String)
    (now : Nat) (st : ServerState) (p : Party) (h : Nat)
    (hp : alookup st.parties aid = some p)
    (hw : p.state = PartyState.waiting) (hm : p.members = [h])
    (hch : (alookup st.clients h).isSome)
    (hcj : (alookup st.clients j).isSome) :
    (join_adventure_party aid j cr un now st).1 = true ∧
    (∃ p', alookup (join_adventure_party aid j cr un now st).2.parties aid = some p' ∧
      p'.state = PartyState.active ∧ p'.members = [h, j]) ∧
    (join_adventure_party aid j cr un now st).2.outbox = st.outbox ++
      [(h, Msg.ADVENTURE_PARTY_UPDATE aid [h, j] (p.creatures ++ [cr])
         (p.usernames ++ [un]) p.host PartyState.waiting now),
       (j, Msg.ADVENTURE_PARTY_UPDATE aid [h, j] (p.creatures ++ [cr])
         (p.usernames ++ [un]) p.host PartyState.waiting now),
       (h, Msg.ADVENTURE_START aid [h, j] (p.creatures ++ [cr])
         (p.usernames ++ [un]) p.host now),
       (j, Msg.ADVENTURE_START aid [h, j] (p.creatures ++ [cr])
         (p.usernames ++ [un]) p.host now)] := by
  have hfull : ¬ 4 ≤ p.members.length := by rw [hm]; simp
  have hne : ¬ p.state ≠ PartyState.waiting := by simp [hw]
  unfold join_adventure_party
  simp only [hp, if_neg hfull, if_neg hne]
  rw [if_pos (show (2:Nat) ≤ (p.members ++ [j]).length from by rw [hm]; simp)]
  rw [broadcast_adventure_update_eq _ _ _ _ (alookup_aset_self _ _ _)]
  dsimp only
  rw [broadcast_adventure_start_eq _ _ _ _ (alookup_aset_self _ _ _)]
  dsimp only
  refine ⟨rfl, ⟨_, alookup_aset_self _ _ _, rfl, by simp [hm]⟩, ?_⟩
  simp [hm, hw, List.filter_cons, hch, hcj]

/-- Claim C4 counterexample.  A 3rd joiner of a party does NOT receive an
`ADVENTURE_PARTY_UPDATE`: once the 2nd member has joined the party is
`active`, so the 3rd join attempt fails and the joiner receives only an
`ADVENTURE_JOIN_FAILED` envelope.  Concretely: party 0 is active with
members `[1, 2]`; client 3 attempts to join. -/
theorem c4_counterexample :
    let p0 : Party := { id := 0, host := 1, members := [1, 2],
                        creatures := [some 7, some 8], usernames := ["a", "b"],
                        state := PartyState.active,
                        creation_time := 0, last_activity := 0 }
    let st0 : ServerState := { clients := [(1, initClient), (2, initClient),
                                           (3, initClient)],
                               lobby := [], battles := [], parties := [(0, p0)],
                               nextId := 4, outbox := [] }
    (join_adventure_party 0 3 (some 9) "c" 5 st0).1 = false ∧
    (serverStep st0 (Event.joinAdventure 3 0 9 5)).outbox =
      [(3, Msg.ADVENTURE_JOIN_FAILED 0 "Failed to join adventure party")] := by
  decide

/-- Claim C4 (amended): when a party's second member joins, the join
succeeds, the party's state flips from `waiting` to `active`, and every
member is sent one `ADVENTURE_PARTY_UPDATE` followed by one
`ADVENTURE_START`; a subsequent 3rd (or later) join attempt instead fails —
the party being `active` — leaving the party untouched, and the joiner
receives only an `ADVENTURE_JOIN_FAILED` envelope (no second
`ADVENTURE_START` and no `ADVENTURE_PARTY_UPDATE`); and over any run the
party's state never reverts from `active` to `waiting`. -/
theorem c4_amended :
    (∀ aid j cr un now st p h, alookup st.parties aid = some p →
      p.state = PartyState.waiting → p.members = [h] →
      (alookup st.clients h).isSome → (alookup st.clients j).isSome →
      (join_adventure_party aid j cr un now st).1 = true ∧
      (∃ p', alookup (join_adventure_party aid j cr un now st).2.parties aid = some p' ∧
        p'.state = PartyState.active ∧ p'.members = [h, j]) ∧
      (join_adventure_party aid j cr un now st).2.outbox = st.outbox ++
        [(h, Msg.ADVENTURE_PARTY_UPDATE aid [h, j] (p.creatures ++ [cr])
           (p.usernames ++ [un]) p.host PartyState.waiting now),
         (j, Msg.ADVENTURE_PARTY_UPDATE aid [h, j] (p.creatures ++ [cr])
           (p.usernames ++ [un]) p.host PartyState.waiting now),
         (h, Msg.ADVENTURE_START aid [h, j] (p.creatures ++ [cr])
           (p.usernames ++ [un]) p.host now),
         (j, Msg.ADVENTURE_START aid [h, j] (p.creatures ++ [cr])
           (p.usernames ++ [un]) p.host now)]) ∧
    (∀ aid pid cr un now st p, alookup st.parties aid = some p →
      p.state = PartyState.active →
      (join_adventure_party aid pid cr un now st).1 = false ∧
      (join_adventure_party aid pid cr un now st).2 = st) ∧
    (∀ pid aid cr now st c p, alookup st.clients pid = some c →
      alookup st.parties aid = some p → p.state = PartyState.active →
      (handle_join_adventure pid aid cr now st).outbox =
        st.outbox ++ [(pid, Msg.ADVENTURE_JOIN_FAILED aid
          "Failed to join adventure party")]) ∧
    (∀ es st aid, aid < st.nextId →
      (∀ p, alookup st.parties aid = some p → p.state = PartyState.active) →
      ∀ p', alookup (runEvents st es).parties aid = some p' →
        p'.state = PartyState.active) := by
  refine ⟨?_, ?_, ?_, ?_⟩
  · intro aid j cr un now st p h hp hw hm hch hcj
    exact second_join_starts aid j cr un now st p h hp hw hm hch hcj
  · intro aid pid cr un now st p hp hact
    have hf : (join_adventure_party aid pid cr un now st).1 = false := by
      rw [join_fail_iff]
      exact Or.inr ⟨p, hp, Or.inr (by simp [hact])⟩
    exact ⟨hf, join_fail_frame _ _ _ _ _ _ hf⟩
  · intro pid aid cr now st c p hc hp hact
    exact handle_join_adventure_fail_outbox pid aid cr now st c hc
      (Or.inr ⟨p, hp, Or.inr (by simp [hact])⟩)
  · intro es st aid hfresh hact
    exact runEvents_active_preserved es st aid hfresh hact

/-- Witness for `c4_amended`: each conjunct applied to the concrete
two-client party scenario. -/
theorem c4_amended_witness :
    let pW : Party := { id := 0, host := 1, members := [1], creatures := [some 7],
                        usernames := ["a"], state := PartyState.waiting,
                        creation_time := 0, last_activity := 0 }
    let stW : ServerState := { clients := [(1, initClient), (2, initClient)],
                               lobby := [], battles := [], parties := [(0, pW)],
                               nextId := 3, outbox := [] }
    let pA : Party := { id := 0, host := 1, members := [1, 2],
                        creatures := [some 7, some 8], usernames := ["a", "b"],
                        state := PartyState.active,
                        creation_time := 0, last_activity := 0 }
    let stA : ServerState := { clients := [(1, initClient), (2, initClient),
                                           (3, initClient)],
                               lobby := [], battles := [], parties := [(0, pA)],
                               nextId := 4, outbox := [] }
    ((join_adventure_party 0 2 (some 8) "b" 5 stW).1 = true) ∧
    ((join_adventure_party 0 3 (some 9) "c" 5 stA).1 = false) ∧
    ((handle_join_adventure 3 0 9 5 stA).outbox =
      [(3, Msg.ADVENTURE_JOIN_FAILED 0 "Failed to join adventure party")]) ∧
    (∀ p', alookup (runEvents stA [Event.joinAdventure 3 0 9 5]).parties 0 = some p' →
      p'.state = PartyState.active) := by
  intro pW stW pA stA
  refine ⟨?_, ?_, ?_, ?_⟩
  · exact (c4_amended.1 0 2 (some 8) "b" 5 stW pW 1 (by decide) (by decide)
      (by decide) (by decide) (by decide)).1
  · exact (c4_amended.2.1 0 3 (some 9) "c" 5 stA pA (by decide) (by decide)).1
  · simpa using c4_amended.2.2.1 3 0 9 5 stA initClient pA (by decide) (by decide)
      (by decide)
  · exact c4_amended.2.2.2 [Event.joinAdventure 3 0 9 5] stA 0 (by decide)
      (by decide)

/-! ## Claim C10: party size never exceeds 2 -/
/-- A successful join appends the member and activates the party exactly
when that brings membership to 2 or more. -/
theorem join_success_state (aid pid : Nat) (cr : Option Creature) (un : String)
    (now : Nat) (st : ServerState) (p : Party)
    (h : alookup st.parties aid = some p) (hlen : p.members.length < 4)
    (hw : p.state = PartyState.waiting) :
    ∃ p', alookup (join_adventure_party aid pid cr un now st).2.parties aid = some p' ∧
      p'.members = p.members ++ [pid] ∧
      p'.state = (if 2 ≤ p.members.length + 1 then PartyState.active
                  else PartyState.waiting) := by
  have hfull : ¬ 4 ≤ p.members.length := by omega
  have hne : ¬ p.state ≠ PartyState.waiting := by simp [hw]
  unfold join_adventure_party
  simp only [h, if_neg hfull, if_neg hne]
  split
  · refine ⟨{ p with
      members := p.members ++ [pid],
      creatures := p.creatures ++ [cr],
      usernames := p.usernames ++ [un],
      last_activity := now,
      state := PartyState.active }, ?_, rfl, ?_⟩
    · simp [broadcast_adventure_start_parties, broadcast_adventure_update_parties,
        alookup_aset_self]
    · rw [if_pos (by simpa using ‹2 ≤ (p.members ++ [pid]).length›)]
  · refine ⟨{ p with
      members := p.members ++ [pid],
      creatures := p.creatures ++ [cr],
      usernames := p.usernames ++ [un],
      last_activity := now }, ?_, rfl, ?_⟩
    · simp [broadcast_adventure_update_parties, alookup_aset_self]
    · rw [if_neg (by simpa using ‹¬ 2 ≤ (p.members ++ [pid]).length›), hw]

theorem serverStep_PartyInv (st : ServerState) (e : Event) (hinv : PartyInv st) :
    PartyInv (serverStep st e) := by
  intro aid p' h
  rcases serverStep_parties_cases st e aid p' h with
    h1 | ⟨_, hlen, hw⟩ | ⟨p, hp, hw, _, hm, hs⟩ | ⟨p, hp, hs, hl⟩
  · exact hinv aid p' h1
  · constructor
    · omega
    · intro _; omega
  · have hold := hinv aid p hp
    have holdw : p.members.length ≤ 1 := hold.2 hw
    constructor
    · omega
    · intro hw'
      by_cases hcond : 2 ≤ p.members.length + 1
      · rw [if_pos hcond] at hs
        rw [hw'] at hs
        cases hs
      · rw [if_neg hcond] at hs
        omega
  · have hold := hinv aid p hp
    constructor
    · omega
    · intro hw'
      rw [hw'] at hs
      have := hold.2 hs.symm
      omega

theorem runEvents_PartyInv (es : List Event) (st : ServerState)
    (hinv : PartyInv st) : PartyInv (runEvents st es) := by
  induction es generalizing st with
  | nil => exact hinv
  | cons e es ih => exact ih (serverStep st e) (serverStep_PartyInv st e hinv)

/-- Claim C10: in every reachable server state every adventure party has at
most 2 members — a party is created with exactly 1 member and `waiting`
state, a join succeeds only while the party is `waiting`, and a successful
join that brings membership to 2 or more sets the state to `active` — so
the `>= 4` "party full" rejection branch of `join_adventure_party` can
never be taken on a reachable party. -/
theorem c10_party_capacity :
    (∀ es aid p, alookup (runEvents initState es).parties aid = some p →
      p.members.length ≤ 2 ∧
      (p.state = PartyState.waiting → p.members.length ≤ 1) ∧
      ¬ 4 ≤ p.members.length) ∧
    (∀ pid cr un now st,
      ∃ p, alookup (create_adventure_party pid cr un now st).2.parties
          (create_adventure_party pid cr un now st).1 = some p ∧
        p.members = [pid] ∧ p.state = PartyState.waiting) ∧
    (∀ aid pid cr un now st,
      (join_adventure_party aid pid cr un now st).1 = true →
      ∃ p, alookup st.parties aid = some p ∧ p.state = PartyState.waiting) ∧
    (∀ aid pid cr un now st p, alookup st.parties aid = some p →
      p.members.length < 4 → p.state = PartyState.waiting →
      ∃ p', alookup (join_adventure_party aid pid cr un now st).2.parties aid = some p' ∧
        p'.members = p.members ++ [pid] ∧
        (2 ≤ p'.members.length → p'.state = PartyState.active)) := by
  refine ⟨?_, ?_, ?_, ?_⟩
  · intro es aid p h
    have hbase : PartyInv initState := by
      intro aid p h
      cases h
    have := runEvents_PartyInv es initState hbase aid p h
    exact ⟨this.1, this.2, by omega⟩
  · intro pid cr un now st
    refine ⟨{ id := st.nextId, host := pid, members := [pid], creatures := [cr],
              usernames := [un], state := PartyState.waiting,
              creation_time := now, last_activity := now }, ?_, rfl, rfl⟩
    unfold create_adventure_party
    dsimp only
    exact alookup_aset_self _ _ _
  · intro aid pid cr un now st htrue
    have hnotfalse : ¬ (join_adventure_party aid pid cr un now st).1 = false := by
      rw [htrue]; simp
    rw [join_fail_iff] at hnotfalse
    push_neg at hnotfalse
    obtain ⟨hne, hforall⟩ := hnotfalse
    rcases hlk : alookup st.parties aid with _ | p
    · exact absurd hlk hne
    · have := hforall p hlk
      push_neg at this
      exact ⟨p, rfl, this.2⟩
  · intro aid pid cr un now st p h hlen hw
    obtain ⟨p', hp', hm, hs⟩ := join_success_state aid pid cr un now st p h hlen hw
    refine ⟨p', hp', hm, ?_⟩
    intro h2
    rw [hm] at h2
    simp at h2
    rw [hs, if_pos (by omega)]

/-- Witness for `c10_party_capacity`: all four conjuncts applied at
concrete inputs (a run creating one party; a direct create; a join onto a
1-member waiting room). -/
theorem c10_party_capacity_witness :
    let pW : Party := { id := 0, host := 1, members := [1], creatures := [some 7],
                        usernames := ["a"], state := PartyState.waiting,
                        creation_time := 0, last_activity := 0 }
    let stW : ServerState := { clients := [(1, initClient), (2, initClient)],
                               lobby := [], battles := [], parties := [(0, pW)],
                               nextId := 3, outbox := [] }
    (∀ p, alookup (runEvents initState
        [Event.connect, Event.createAdventure 0 7 1]).parties 1 = some p →
      p.members.length ≤ 2 ∧
      (p.state = PartyState.waiting → p.members.length ≤ 1) ∧
      ¬ 4 ≤ p.members.length) ∧
    (∃ p, alookup (create_adventure_party 5 (some 7) "u" 2 stW).2.parties
        (create_adventure_party 5 (some 7) "u" 2 stW).1 = some p ∧
      p.members = [5] ∧ p.state = PartyState.waiting) ∧
    (∃ p, alookup stW.parties 0 = some p ∧ p.state = PartyState.waiting) ∧
    (∃ p', alookup (join_adventure_party 0 2 (some 8) "b" 5 stW).2.parties 0 = some p' ∧
      p'.members = [1, 2] ∧
      (2 ≤ p'.members.length → p'.state = PartyState.active)) := by
  intro pW stW
  refine ⟨?_, ?_, ?_, ?_⟩
  · intro p h
    exact c10_party_capacity.1 [Event.connect, Event.createAdventure 0 7 1] 1 p h
  · exact c10_party_capacity.2.1 5 (some 7) "u" 2 stW
  · exact c10_party_capacity.2.2.1 0 2 (some 8) "b" 5 stW (by decide)
  · obtain ⟨p', hp', hm, hs⟩ := c10_party_capacity.2.2.2 0 2 (some 8) "b" 5 stW pW
      (by decide) (by decide) (by decide)
    exact ⟨p', hp', hm, hs⟩

/-! ## Claim C5: exclusive room membership (violated by the code) -/
/-- Claim C5 failing trace.  The handlers never check existing room
membership, so a session that joins the lobby and then creates an
adventure party is simultaneously in the lobby queue and in a party:
after `connect; JOIN_LOBBY; CREATE_ADVENTURE` from the same session,
session 0 is still in the lobby queue while also being the sole member of
party 1 (both its `in_lobby` and `in_adventure` flags are set).  This
contradicts the at-most-one-room invariant the claim states. -/
theorem c5_failing_trace :
    (runEvents initState
      [Event.connect, Event.joinLobby 0 7 none 1,
        Event.createAdventure 0 7 2]).lobby = [0] ∧
    (alookup (runEvents initState
      [Event.connect, Event.joinLobby 0 7 none 1,
        Event.createAdventure 0 7 2]).parties 1).map Party.members
      = some [0] ∧
    (alookup (runEvents initState
      [Event.connect, Event.joinLobby 0 7 none 1,
        Event.createAdventure 0 7 2]).clients 0).map Client.in_lobby
      = some true ∧
    (alookup (runEvents initState
      [Event.connect, Event.joinLobby 0 7 none 1,
        Event.createAdventure 0 7 2]).clients 0).map Client.in_adventure
      = some true := by
  decide

/-! ## Claim C2: disconnect forfeits the battle, cleanup is idempotent -/
theorem notify_battle_end_hit (bid : Nat) (winner : Option Side) (reason : String)
    (s : ServerState) (p : Nat) (c : Client)
    (hc : alookup s.clients p = some c)
    (hb : c.in_battle = true) (hid : c.battle_id = some bid) :
    notify_battle_end bid winner reason s p =
      { s with
        clients := aset s.clients p { c with in_battle := false, battle_id := none },
        outbox := s.outbox ++ [(p, Msg.BATTLE_END bid winner reason)] } := by
  unfold notify_battle_end
  simp only [hc]
  rw [if_pos ⟨hb, hid⟩]
  rfl

/-- `end_battle` on a present battle whose two participants are registered
clients still flagged as being in this battle: both get their flags
cleared and are sent one `BATTLE_END` each, and the room is deleted. -/
theorem end_battle_run (st : ServerState) (bid : Nat) (ender : Option Nat)
    (b : Battle) (c1 c2 : Client)
    (hb : alookup st.battles bid = some b)
    (hne : b.player1 ≠ b.player2)
    (hc1 : alookup st.clients b.player1 = some c1)
    (hb1 : c1.in_battle = true) (hid1 : c1.battle_id = some bid)
    (hc2 : alookup st.clients b.player2 = some c2)
    (hb2 : c2.in_battle = true) (hid2 : c2.battle_id = some bid) :
    end_battle bid ender st =
      { st with
        clients := aset (aset st.clients b.player1
            { c1 with in_battle := false, battle_id := none }) b.player2
            { c2 with in_battle := false, battle_id := none },
        battles := aerase st.battles bid,
        outbox := st.outbox ++
          [(b.player1, Msg.BATTLE_END bid
             (ender.map (fun p => if p = b.player1 then Side.player2
                                  else Side.player1))
             (if ender.isSome then "disconnect" else "completion")),
           (b.player2, Msg.BATTLE_END bid
             (ender.map (fun p => if p = b.player1 then Side.player2
                                  else Side.player1))
             (if ender.isSome then "disconnect" else "completion"))] } := by
  unfold end_battle
  rw [hb]
  dsimp only
  show ({ List.foldl _ st [b.player1, b.player2] with
    battles := aerase (List.foldl _ st [b.player1, b.player2]).battles bid } : ServerState) = _
  simp only [List.foldl]
  rw [notify_battle_end_hit bid _ _ st b.player1 c1 hc1 hb1 hid1]
  rw [notify_battle_end_hit bid _ _ _ b.player2 c2
    (by rw [show ({ st with
          clients := aset st.clients b.player1
            { c1 with in_battle := false, battle_id := none },
          outbox := st.outbox ++ [(b.player1, _)] } : ServerState).clients
        = aset st.clients b.player1
            { c1 with in_battle := false, battle_id := none } from rfl]
        exact (alookup_aset_ne _ _ _ _ hne).trans hc2)
    hb2 hid2]
  dsimp only
  simp only [List.append_assoc]
  rfl

/-- Claim C2: when a battle participant `P` disconnects, the server's
cleanup sends exactly one `BATTLE_END` to the remaining participant `Q`,
carrying `winner` = `Q`'s side and `reason = "disconnect"`; the room is
removed from the battles table; and running the battle-end cleanup again
for the removed id is a no-op. -/
theorem c2_disconnect_forfeit :
    ∀ st bid P Q cP cQ b now,
      alookup st.clients P = some cP →
      cP.in_lobby = false → cP.in_battle = true → cP.battle_id = some bid →
      cP.in_adventure = false →
      alookup st.clients Q = some cQ →
      cQ.in_battle = true → cQ.battle_id = some bid →
      alookup st.battles bid = some b →
      ((b.player1 = P ∧ b.player2 = Q) ∨ (b.player1 = Q ∧ b.player2 = P)) →
      P ≠ Q →
      ((serverStep st (Event.disconnect P now)).outbox.drop st.outbox.length).filter
          (fun q => q.1 == Q) =
        [(Q, Msg.BATTLE_END bid
          (some (if Q = b.player1 then Side.player1 else Side.player2))
          "disconnect")] ∧
      alookup (serverStep st (Event.disconnect P now)).battles bid = none ∧
      (∀ ender, end_battle bid ender (serverStep st (Event.disconnect P now)) =
        serverStep st (Event.disconnect P now)) := by
  intro st bid P Q cP cQ b now hcP hlob hbat hbid hadv hcQ hQb hQid hb hside hPQ
  have hQP : Q ≠ P := fun hh => hPQ hh.symm
  rcases hside with ⟨h1, h2⟩ | ⟨h1, h2⟩
  · -- P is player1, Q is player2
    have hEB := end_battle_run st bid (some P) b cP cQ hb
      (by rw [h1, h2]; exact hPQ) (by rw [h1]; exact hcP) hbat hbid
      (by rw [h2]; exact hcQ) hQb hQid
    rw [h1, h2] at hEB
    have hstep : serverStep st (Event.disconnect P now) =
        end_battle bid (some P) st := by
      show clean_up P now st = _
      unfold clean_up
      simp only [hcP, hlob, Bool.false_eq_true, if_false, hbat, if_true, hbid]
      rw [hEB]
      dsimp only
      rw [alookup_aset_ne _ _ _ _ hQP, alookup_aset_self]
      dsimp only
      rw [hadv]
      simp
    refine ⟨?_, ?_, ?_⟩
    · rw [hstep, hEB]
      dsimp only
      rw [List.drop_left]
      simp [hPQ, hQP, h1]
    · rw [hstep, hEB]
      dsimp only
      exact alookup_aerase_self _ _
    · intro ender
      have hnone : alookup (serverStep st (Event.disconnect P now)).battles bid
          = none := by
        rw [hstep, hEB]
        dsimp only
        exact alookup_aerase_self _ _
      unfold end_battle
      rw [hnone]
  · -- P is player2, Q is player1
    have hEB := end_battle_run st bid (some P) b cQ cP hb
      (by rw [h1, h2]; exact hQP) (by rw [h1]; exact hcQ) hQb hQid
      (by rw [h2]; exact hcP) hbat hbid
    rw [h1, h2] at hEB
    have hstep : serverStep st (Event.disconnect P now) =
        end_battle bid (some P) st := by
      show clean_up P now st = _
      unfold clean_up
      simp only [hcP, hlob, Bool.false_eq_true, if_false, hbat, if_true, hbid]
      rw [hEB]
      dsimp only
      rw [alookup_aset_self]
      dsimp only
      rw [hadv]
      simp
    refine ⟨?_, ?_, ?_⟩
    · rw [hstep, hEB]
      dsimp only
      rw [List.drop_left]
      simp [hPQ, hQP, h1]
    · rw [hstep, hEB]
      dsimp only
      exact alookup_aerase_self _ _
    · intro ender
      have hnone : alookup (serverStep st (Event.disconnect P now)).battles bid
          = none := by
        rw [hstep, hEB]
        dsimp only
        exact alookup_aerase_self _ _
      unfold end_battle
      rw [hnone]

/-- Witness for `c2_disconnect_forfeit`: battle 0 between clients 1 and 2;
client 1 disconnects at time 9. -/
theorem c2_disconnect_forfeit_witness :
    let cB : Client := { initClient with in_battle := true, battle_id := some 0 }
    let b0 : Battle := { id := 0, player1 := 1, player2 := 2,
                         creature1 := some 7, creature2 := some 8,
                         current_turn := Side.player1,
                         start_time := 0, last_activity := 0 }
    let st0 : ServerState := { clients := [(1, cB), (2, cB)], lobby := [],
                               battles := [(0, b0)], parties := [],
                               nextId := 3, outbox := [] }
    ((serverStep st0 (Event.disconnect 1 9)).outbox.drop st0.outbox.length).filter
        (fun q => q.1 == 2) =
      [(2, Msg.BATTLE_END 0
        (some (if 2 = b0.player1 then Side.player1 else Side.player2))
        "disconnect")] ∧
    alookup (serverStep st0 (Event.disconnect 1 9)).battles 0 = none ∧
    (∀ ender, end_battle 0 ender (serverStep st0 (Event.disconnect 1 9)) =
      serverStep st0 (Event.disconnect 1 9)) := by
  intro cB b0 st0
  exact c2_disconnect_forfeit st0 0 1 2 cB cB b0 9 (by decide) (by decide)
    (by decide) (by decide) (by decide) (by decide) (by decide) (by decide)
    (by decide) (Or.inl (by decide)) (by decide)

theorem match_players_noop (now : Nat) (st : ServerState)
    (h : st.lobby.length < 2) : match_players now st = st := by
  unfold match_players
  cases hl : st.lobby with
  | nil => rfl
  | cons p1 t =>
    cases t with
    | nil => rfl
    | cons p2 t2 =>
      rw [hl] at h
      simp at h
      omega

theorem match_loop_noop (k now : Nat) (st : ServerState)
    (h : st.lobby.length < 2) : match_loop k now st = st := by
  induction k with
  | zero => rfl
  | succ k ih =>
    show match_loop k now (match_players now st) = st
    rw [match_players_noop now st h]
    exact ih

/-- One execution of `match_players` on a queue `a :: b :: t`: the two
oldest waiting sessions are paired, both leave the queue at once, and one
new battle room between exactly them is appended under a fresh id. -/
theorem match_players_step (now : Nat) (st : ServerState) (a b : Nat)
    (t : List Nat) (c1 c2 : Client)
    (hl : st.lobby = a :: b :: t)
    (hc1 : alookup st.clients a = some c1)
    (hc2 : alookup st.clients b = some c2)
    (hfresh : ∀ q ∈ st.battles, q.1 < st.nextId) :
    ∃ bt : Battle, bt.player1 = a ∧ bt.player2 = b ∧
      (match_players now st).lobby = t ∧
      (match_players now st).battles = st.battles ++ [(st.nextId, bt)] ∧
      (match_players now st).nextId = st.nextId + 1 ∧
      (∀ p, (alookup st.clients p).isSome →
        (alookup (match_players now st).clients p).isSome) := by
  have hmem_a : a ∈ st.lobby := by rw [hl]; exact List.mem_cons_self _ _
  have h1 : remove_from_lobby a now st =
      { st with lobby := b :: t,
                outbox := st.outbox ++ (b :: t).map
                  (fun p => (p, Msg.LOBBY_STATUS (b :: t).length now)) } := by
    unfold remove_from_lobby
    rw [if_pos hmem_a]
    unfold broadcast_lobby_status
    rw [hl, List.erase_cons_head]
  have h2 : remove_from_lobby b now (remove_from_lobby a now st) =
      { st with lobby := t,
                outbox := (st.outbox ++ (b :: t).map
                    (fun p => (p, Msg.LOBBY_STATUS (b :: t).length now))) ++
                  t.map (fun p => (p, Msg.LOBBY_STATUS t.length now)) } := by
    rw [h1]
    unfold remove_from_lobby
    dsimp only
    rw [if_pos (List.mem_cons_self b t)]
    unfold broadcast_lobby_status
    dsimp only
    rw [List.erase_cons_head]
  have hbody : match_players now st =
      send b (Msg.BATTLE_START st.nextId Side.player2
               c2.creature c1.creature Side.player1)
        (send a (Msg.BATTLE_START st.nextId Side.player1
                  c1.creature c2.creature Side.player1)
          { st with
            lobby := t,
            clients := aset (aset st.clients a
                ({ c1 with in_battle := true, battle_id := some st.nextId })) b
                ({ c2 with in_battle := true, battle_id := some st.nextId }),
            battles := aset st.battles st.nextId
              { id := st.nextId, player1 := a, player2 := b,
                creature1 := c1.creature, creature2 := c2.creature,
                current_turn := Side.player1, start_time := now,
                last_activity := now },
            nextId := st.nextId + 1,
            outbox := (st.outbox ++ (b :: t).map
                (fun p => (p, Msg.LOBBY_STATUS (b :: t).length now))) ++
              t.map (fun p => (p, Msg.LOBBY_STATUS t.length now)) }) := by
    unfold match_players
    rw [hl]
    dsimp only
    rw [hc1, hc2]
    dsimp only
    rw [h2]
  refine ⟨{ id := st.nextId, player1 := a, player2 := b,
            creature1 := c1.creature, creature2 := c2.creature,
            current_turn := Side.player1, start_time := now,
            last_activity := now }, rfl, rfl, ?_, ?_, ?_, ?_⟩
  · rw [hbody]; rfl
  · rw [hbody]
    show aset st.battles st.nextId _ = st.battles ++ [(st.nextId, _)]
    exact aset_fresh _ _ _ (fun q hq => Nat.ne_of_lt (hfresh q hq))
  · rw [hbody]; rfl
  · intro p hp
    rw [hbody]
    show (alookup (aset (aset st.clients a _) b _) p).isSome
    by_cases hpb : b = p
    · subst hpb; rw [alookup_aset_self]; rfl
    · rw [alookup_aset_ne _ _ _ _ hpb]
      by_cases hpa : a = p
      · subst hpa; rw [alookup_aset_self]; rfl
      · rw [alookup_aset_ne _ _ _ _ hpa]; exact hp

theorem lobbyPairs_join_eq : ∀ l : List Nat,
    ((lobbyPairs l).map (fun q => [q.1, q.2])).flatten = l.take (2 * (l.length / 2))
  | [] => by simp [lobbyPairs]
  | [a] => by simp [lobbyPairs]
  | a :: b :: t => by
    have ih := lobbyPairs_join_eq t
    show a :: b :: ((lobbyPairs t).map (fun q => [q.1, q.2])).flatten = _
    rw [ih]
    have h2 : 2 * ((a :: b :: t).length / 2) = 2 * (t.length / 2) + 2 := by
      simp only [List.length_cons]
      omega
    rw [h2]
    rfl

theorem c1_aux : ∀ (n : Nat) (l : List Nat) (st : ServerState) (now k : Nat),
    l.length ≤ n → st.lobby = l →
    (∀ p ∈ l, (alookup st.clients p).isSome) →
    (∀ q ∈ st.battles, q.1 < st.nextId) →
    l.length / 2 ≤ k →
    ∃ nb, (match_loop k now st).battles = st.battles ++ nb ∧
      nb.map (fun q => (q.2.player1, q.2.player2)) = lobbyPairs l ∧
      nb.length = l.length / 2 ∧
      (match_loop k now st).lobby = l.drop (2 * (l.length / 2)) := by
  intro n
  induction n with
  | zero =>
    intro l st now k hn hl _ _ _
    have hl0 : l = [] := List.length_eq_zero.mp (Nat.le_zero.mp hn)
    subst hl0
    rw [match_loop_noop k now st (by rw [hl]; simp)]
    exact ⟨[], by simp, by simp [lobbyPairs], by simp, by simpa using hl⟩
  | succ n ih =>
    intro l st now k hn hl hcl hfresh hk
    match l with
    | [] =>
      rw [match_loop_noop k now st (by rw [hl]; simp)]
      exact ⟨[], by simp, by simp [lobbyPairs], by simp, by simpa using hl⟩
    | [a] =>
      rw [match_loop_noop k now st (by rw [hl]; simp)]
      exact ⟨[], by simp, by simp [lobbyPairs], by simp, by simpa using hl⟩
    | a :: b :: t =>
      have hka : t.length / 2 + 1 ≤ k := by
        simp only [List.length_cons] at hk
        omega
      match k with
      | 0 => omega
      | k' + 1 =>
        obtain ⟨c1, hc1⟩ := Option.isSome_iff_exists.mp
          (hcl a (List.mem_cons_self _ _))
        obtain ⟨c2, hc2⟩ := Option.isSome_iff_exists.mp
          (hcl b (List.mem_cons_of_mem _ (List.mem_cons_self _ _)))
        obtain ⟨bt, hbt1, hbt2, hlob1, hbat1, hnid1, hpres1⟩ :=
          match_players_step now st a b t c1 c2 hl hc1 hc2 hfresh
        have hstep : match_loop (k' + 1) now st =
            match_loop k' now (match_players now st) := rfl
        have ihres := ih t (match_players now st) now k'
          (by simp only [List.length_cons] at hn; omega)
          hlob1
          (fun p hp => hpres1 p (hcl p
            (List.mem_cons_of_mem _ (List.mem_cons_of_mem _ hp))))
          (by
            intro q hq
            rw [hbat1] at hq
            rw [hnid1]
            rcases List.mem_append.mp hq with hq1 | hq1
            · exact Nat.lt_succ_of_lt (hfresh q hq1)
            · have : q = (st.nextId, bt) := by simpa using hq1
              rw [this]
              exact Nat.lt_succ_self _)
          (by omega)
        obtain ⟨nb', hb', hm', hlen', hlob'⟩ := ihres
        refine ⟨(st.nextId, bt) :: nb', ?_, ?_, ?_, ?_⟩
        · rw [hstep, hb', hbat1]
          simp
        · show (bt.player1, bt.player2) :: nb'.map _ = lobbyPairs (a :: b :: t)
          rw [hbt1, hbt2, hm']
          rfl
        · show nb'.length + 1 = (a :: b :: t).length / 2
          simp only [List.length_cons]
          omega
        · rw [hstep, hlob']
          have h2 : 2 * ((a :: b :: t).length / 2) = 2 * (t.length / 2) + 2 := by
            simp only [List.length_cons]
            omega
          rw [h2]
          rfl

/-- Claim C1: with N distinct sessions waiting in the lobby (all registered
clients, battle ids fresh), running the matchmaking loop at least ⌊N/2⌋
times creates exactly ⌊N/2⌋ new battle rooms, appended in order; the k-th
room pairs the (2k-1)-th and (2k)-th oldest waiting sessions (strict FIFO);
the paired sessions all are distinct — so each room holds two distinct
sessions and no session is paired twice — and the leftover queue is the odd
tail, both paired sessions leaving the queue the moment they are paired. -/
theorem c1_matchmaking_fifo :
    ∀ l st now k, st.lobby = l → l.Nodup →
      (∀ p ∈ l, (alookup st.clients p).isSome) →
      (∀ q ∈ st.battles, q.1 < st.nextId) →
      l.length / 2 ≤ k →
      ∃ nb, (match_loop k now st).battles = st.battles ++ nb ∧
        nb.length = l.length / 2 ∧
        nb.map (fun q => (q.2.player1, q.2.player2)) = lobbyPairs l ∧
        (match_loop k now st).lobby = l.drop (2 * (l.length / 2)) ∧
        ((lobbyPairs l).map (fun q => [q.1, q.2])).flatten.Nodup := by
  intro l st now k hl hnd hcl hfresh hk
  obtain ⟨nb, hb, hm, hlen, hlob⟩ := c1_aux l.length l st now k (le_refl _)
    hl hcl hfresh hk
  refine ⟨nb, hb, hlen, hm, hlob, ?_⟩
  rw [lobbyPairs_join_eq]
  exact hnd.sublist (List.take_sublist _ _)

/-- Witness for `c1_matchmaking_fifo`: three clients 10, 11, 12 waiting
(N = 3), one matchmaking tick: one battle (10 vs 11) and 12 left waiting. -/
theorem c1_matchmaking_fifo_witness :
    let st0 : ServerState := { clients := [(10, initClient), (11, initClient),
                                           (12, initClient)],
                               lobby := [10, 11, 12], battles := [],
                               parties := [], nextId := 13, outbox := [] }
    ∃ nb, (match_loop 1 5 st0).battles = st0.battles ++ nb ∧
      nb.length = [10, 11, 12].length / 2 ∧
      nb.map (fun q => (q.2.player1, q.2.player2)) = lobbyPairs [10, 11, 12] ∧
      (match_loop 1 5 st0).lobby = [10, 11, 12].drop (2 * ([10, 11, 12].length / 2)) ∧
      ((lobbyPairs [10, 11, 12]).map (fun q => [q.1, q.2])).flatten.Nodup := by
  intro st0
  exact c1_matchmaking_fifo [10, 11, 12] st0 5 1 (by decide) (by decide)
    (by decide) (by decide) (by decide)

/-! ## Round-trip of the JSON model -/
theorem eatTok_append (tok rest : List Char) :
    eatTok tok (tok ++ rest) = some rest := by
  induction tok with
  | nil => rfl
  | cons c t ih => simp [eatTok, ih]

theorem skipWs_nonws (c : Char) (t : List Char) (h : isWs c = false) :
    skipWs (c :: t) = c :: t := by
  simp [skipWs, h]

theorem digitChar_isDigit (d : Nat) : (digitChar d).isDigit = true := by
  unfold digitChar
  split_ifs <;> decide

theorem digitChar_ne (d : Nat) :
    isWs (digitChar d) = false ∧ digitChar d ≠ 'n' ∧ digitChar d ≠ 't' ∧
    digitChar d ≠ 'f' ∧ digitChar d ≠ '"' ∧ digitChar d ≠ '[' ∧
    digitChar d ≠ '\x7b' ∧ digitChar d ≠ '-' ∧ digitChar d ≠ ']' ∧
    digitChar d ≠ '\x7d' ∧ digitChar d ≠ '\n' ∧ digitChar d ≠ ',' ∧
    digitChar d ≠ ':' := by
  unfold digitChar
  split_ifs <;> decide

theorem digitChar_toNat (d : Nat) (h : d < 10) : (digitChar d).toNat - 48 = d := by
  interval_cases d <;> decide

theorem natToChars_head (n : Nat) :
    ∃ d cs, natToChars n = digitChar d :: cs ∧ d < 10 := by
  induction n using Nat.strong_induction_on with
  | _ n ih =>
    by_cases h : n < 10
    · refine ⟨n, [], ?_, h⟩
      rw [natToChars, dif_pos h]
    · obtain ⟨d, cs, hd, hlt⟩ := ih (n / 10) (Nat.div_lt_self (by omega) (by omega))
      refine ⟨d, cs ++ [digitChar (n % 10)], ?_, hlt⟩
      rw [natToChars, dif_neg h, hd]
      rfl

theorem parseDigits_chunk (n : Nat) : ∀ acc rest,
    parseDigits (natToChars n ++ rest) acc =
      parseDigits rest (acc * 10 ^ (natToChars n).length + n) := by
  induction n using Nat.strong_induction_on with
  | _ n ih =>
    intro acc rest
    by_cases h : n < 10
    · rw [natToChars, dif_pos h]
      show parseDigits (digitChar n :: rest) acc = _
      rw [parseDigits, if_pos (digitChar_isDigit n), digitChar_toNat n h]
      rfl
    · rw [natToChars, dif_neg h]
      rw [List.append_assoc]
      rw [ih (n / 10) (Nat.div_lt_self (by omega) (by omega))]
      show parseDigits (digitChar (n % 10) :: rest) _ = _
      rw [parseDigits, if_pos (digitChar_isDigit _),
        digitChar_toNat _ (Nat.mod_lt _ (by omega))]
      have hlen : (natToChars (n / 10) ++ [digitChar (n % 10)]).length
          = (natToChars (n / 10)).length + 1 := by simp
      rw [hlen]
      have harith : (acc * 10 ^ (natToChars (n / 10)).length + n / 10) * 10 + n % 10
          = acc * 10 ^ ((natToChars (n / 10)).length + 1) + n := by
        rw [pow_succ]
        have := Nat.div_add_mod n 10
        ring_nf
        omega
      rw [harith]

theorem parseDigits_stop (rest : List Char) (acc : Nat)
    (h : goodTail rest = true) : parseDigits rest acc = (acc, rest) := by
  cases rest with
  | nil => rfl
  | cons c t =>
    have : c.isDigit = false := by
      simp [goodTail] at h
      exact h
    rw [parseDigits, if_neg (by rw [this]; exact Bool.false_ne_true)]

theorem parseNum_intToChars (i : Int) (rest : List Char)
    (h : goodTail rest = true) :
    parseNum (intToChars i ++ rest) = some (i, rest) := by
  have hstop := parseDigits_stop rest
  by_cases hneg : i < 0
  · rw [intToChars, if_pos hneg]
    obtain ⟨d, cs, hd, hlt⟩ := natToChars_head i.natAbs
    show parseNum ('-' :: (natToChars i.natAbs ++ rest)) = _
    rw [hd]
    show parseNum ('-' :: (digitChar d :: (cs ++ rest))) = _
    simp only [parseNum]
    rw [if_pos trivial, if_pos (digitChar_isDigit d)]
    have hpd : parseDigits (digitChar d :: (cs ++ rest)) 0 = (i.natAbs, rest) := by
      rw [show digitChar d :: (cs ++ rest) = natToChars i.natAbs ++ rest from by
        rw [hd]; rfl]
      rw [parseDigits_chunk]
      rw [hstop _ h]
      simp
    rw [hpd]
    have : -((i.natAbs : Int)) = i := by omega
    rw [this]
  · rw [intToChars, if_neg hneg]
    obtain ⟨d, cs, hd, hlt⟩ := natToChars_head i.toNat
    rw [hd]
    show parseNum (digitChar d :: (cs ++ rest)) = _
    simp only [parseNum]
    rw [if_neg (digitChar_ne d).2.2.2.2.2.2.2.1, if_pos (digitChar_isDigit d)]
    have hpd : parseDigits (digitChar d :: (cs ++ rest)) 0 = (i.toNat, rest) := by
      rw [show digitChar d :: (cs ++ rest) = natToChars i.toNat ++ rest from by
        rw [hd]; rfl]
      rw [parseDigits_chunk]
      rw [hstop _ h]
      simp
    rw [hpd]
    have : ((i.toNat : Int)) = i := by omega
    rw [this]

theorem parseStr_round : ∀ (s r : List Char),
    parseStr (escString s ++ '"' :: r) = some (s, r) := by
  intro s
  induction s with
  | nil =>
    intro r
    show parseStr ('"' :: r) = some ([], r)
    rw [parseStr.eq_def]
    dsimp only
    rw [if_pos rfl]
  | cons c s ih =>
    intro r
    have hesc : escString (c :: s) = escChar c ++ escString s := by
      simp [escString]
    rw [hesc, List.append_assoc]
    by_cases h1 : c = '"'
    · subst h1; simp [escChar, parseStr, unesc, ih]
    · by_cases h2 : c = '\\'
      · subst h2; simp [escChar, parseStr, unesc, ih]
      · by_cases h3 : c = '\n'
        · subst h3; simp [escChar, parseStr, unesc, ih]
        · by_cases h4 : c = '\r'
          · subst h4; simp [escChar, parseStr, unesc, ih]
          · by_cases h5 : c = '\t'
            · subst h5; simp [escChar, parseStr, unesc, ih]
            · by_cases h6 : c = '\x08'
              · subst h6; simp [escChar, parseStr, unesc, ih]
              · by_cases h7 : c = '\x0c'
                · subst h7; simp [escChar, parseStr, unesc, ih]
                · rw [show escChar c = [c] from by
                    simp [escChar, h1, h2, h3, h4, h5, h6, h7]]
                  show parseStr (c :: (escString s ++ '"' :: r)) = _
                  rw [parseStr.eq_def]
                  dsimp only
                  rw [if_neg h1, if_neg h2, ih]

theorem natToChars_ne_nil (n : Nat) : natToChars n ≠ [] := by
  rw [natToChars]
  split
  · simp
  · simp

/-- Every serialized value starts with a non-whitespace character that is
none of the closing/separator characters. -/
theorem dumpJ_head (j : Json) :
    ∃ c cs, dumpJ j = c :: cs ∧ isWs c = false ∧ c ≠ ']' ∧ c ≠ '\x7d' ∧
      c ≠ ',' ∧ c ≠ ':' := by
  cases j with
  | null => exact ⟨'n', _, rfl, by decide, by decide, by decide, by decide, by decide⟩
  | bool b =>
    cases b with
    | true => exact ⟨'t', _, rfl, by decide, by decide, by decide, by decide, by decide⟩
    | false => exact ⟨'f', _, rfl, by decide, by decide, by decide, by decide, by decide⟩
  | num n =>
    show ∃ c cs, intToChars n = c :: cs ∧ _
    rw [intToChars]
    by_cases hneg : n < 0
    · rw [if_pos hneg]
      exact ⟨'-', _, rfl, by decide, by decide, by decide, by decide, by decide⟩
    · rw [if_neg hneg]
      obtain ⟨d, cs, hd, _⟩ := natToChars_head n.toNat
      exact ⟨digitChar d, cs, hd, (digitChar_ne d).1,
        (digitChar_ne d).2.2.2.2.2.2.2.2.1,
        (digitChar_ne d).2.2.2.2.2.2.2.2.2.1,
        (digitChar_ne d).2.2.2.2.2.2.2.2.2.2.2.1,
        (digitChar_ne d).2.2.2.2.2.2.2.2.2.2.2.2⟩
  | str s => exact ⟨'"', _, rfl, by decide, by decide, by decide, by decide, by decide⟩
  | arr a => exact ⟨'[', _, rfl, by decide, by decide, by decide, by decide, by decide⟩
  | obj o => exact ⟨'\x7b', _, rfl, by decide, by decide, by decide, by decide, by decide⟩

theorem sizeJ_pos (j : Json) : 1 ≤ sizeJ j := by
  cases j <;> simp [sizeJ]

theorem skipWs_ws_cons (c : Char) (t : List Char) (h : isWs c = true) :
    skipWs (c :: t) = skipWs t := by
  simp [skipWs, h]

theorem parseObj_ws_cons (fuel : Nat) (c : Char) (cs : List Char)
    (h : isWs c = true) : parseObj fuel (c :: cs) = parseObj fuel cs := by
  cases fuel with
  | zero => rfl
  | succ fuel =>
    simp only [parseObj]
    rw [skipWs_ws_cons _ _ h]

theorem parse_dump_aux : ∀ fuel : Nat,
    (∀ j rest, sizeJ j ≤ fuel → goodTail rest = true →
      parseVal fuel (dumpJ j ++ rest) = some (j, rest)) ∧
    (∀ a rest, a ≠ JArr.nil → sizeA a ≤ fuel → goodTail rest = true →
      parseArr fuel (dumpA a ++ ']' :: rest) = some (a, rest)) ∧
    (∀ o rest, o ≠ JObj.nil → sizeO o ≤ fuel → goodTail rest = true →
      parseObj fuel (dumpO o ++ '\x7d' :: rest) = some (o, rest)) := by
  intro fuel
  induction fuel with
  | zero =>
    refine ⟨?_, ?_, ?_⟩
    · intro j rest hs _
      have := sizeJ_pos j
      omega
    · intro a rest ha hs _
      cases a with
      | nil => exact absurd rfl ha
      | cons h t =>
        simp [sizeA] at hs
    · intro o rest ho hs _
      cases o with
      | nil => exact absurd rfl ho
      | cons k v t =>
        simp [sizeO] at hs
  | succ fuel ih =>
    obtain ⟨ihP, ihQ, ihR⟩ := ih
    refine ⟨?_, ?_, ?_⟩
    · intro j rest hs hg
      cases j with
      | null =>
        show parseVal (fuel + 1) ('n' :: 'u' :: 'l' :: 'l' :: rest)
          = some (Json.null, rest)
        simp only [parseVal]
        rw [skipWs_nonws _ _ (by decide)]
        dsimp only
        rw [if_pos rfl]
        rw [show ('u' :: 'l' :: 'l' :: rest) = ['u', 'l', 'l'] ++ rest from rfl]
        rw [eatTok_append]
      | bool b =>
        cases b with
        | true =>
          show parseVal (fuel + 1) ('t' :: 'r' :: 'u' :: 'e' :: rest)
            = some (Json.bool true, rest)
          simp only [parseVal]
          rw [skipWs_nonws _ _ (by decide)]
          dsimp only
          rw [if_neg (by decide), if_pos rfl]
          rw [show ('r' :: 'u' :: 'e' :: rest) = ['r', 'u', 'e'] ++ rest from rfl]
          rw [eatTok_append]
        | false =>
          show parseVal (fuel + 1) ('f' :: 'a' :: 'l' :: 's' :: 'e' :: rest)
            = some (Json.bool false, rest)
          simp only [parseVal]
          rw [skipWs_nonws _ _ (by decide)]
          dsimp only
          rw [if_neg (by decide), if_neg (by decide), if_pos rfl]
          rw [show ('a' :: 'l' :: 's' :: 'e' :: rest)
            = ['a', 'l', 's', 'e'] ++ rest from rfl]
          rw [eatTok_append]
      | num n =>
        show parseVal (fuel + 1) (intToChars n ++ rest) = some (Json.num n, rest)
        by_cases hneg : n < 0
        · rw [intToChars, if_pos hneg]
          show parseVal (fuel + 1) ('-' :: (natToChars n.natAbs ++ rest)) = _
          simp only [parseVal]
          rw [skipWs_nonws _ _ (by decide)]
          dsimp only
          rw [if_neg (by decide), if_neg (by decide), if_neg (by decide),
            if_neg (by decide), if_neg (by decide), if_neg (by decide)]
          rw [show ('-' :: (natToChars n.natAbs ++ rest))
            = intToChars n ++ rest from by rw [intToChars, if_pos hneg]; rfl]
          rw [parseNum_intToChars n rest hg]
        · rw [intToChars, if_neg hneg]
          obtain ⟨d, cs, hd, _⟩ := natToChars_head n.toNat
          rw [hd]
          show parseVal (fuel + 1) (digitChar d :: (cs ++ rest)) = _
          simp only [parseVal]
          rw [skipWs_nonws _ _ (digitChar_ne d).1]
          dsimp only
          rw [if_neg (digitChar_ne d).2.1, if_neg (digitChar_ne d).2.2.1,
            if_neg (digitChar_ne d).2.2.2.1, if_neg (digitChar_ne d).2.2.2.2.1,
            if_neg (digitChar_ne d).2.2.2.2.2.1,
            if_neg (digitChar_ne d).2.2.2.2.2.2.1]
          rw [show (digitChar d :: (cs ++ rest)) = intToChars n ++ rest from by
            rw [intToChars, if_neg hneg, hd]
            rfl]
          rw [parseNum_intToChars n rest hg]
      | str s =>
        show parseVal (fuel + 1) ('"' :: ((escString s.data ++ ['"']) ++ rest))
          = some (Json.str s, rest)
        rw [List.append_assoc]
        simp only [parseVal]
        rw [skipWs_nonws _ _ (by decide)]
        dsimp only
        rw [if_neg (by decide), if_neg (by decide), if_neg (by decide),
          if_pos rfl]
        rw [show (['"'] ++ rest : List Char) = '"' :: rest from rfl]
        rw [parseStr_round]
      | arr a =>
        cases a with
        | nil =>
          show parseVal (fuel + 1) ('[' :: ']' :: rest)
            = some (Json.arr JArr.nil, rest)
          simp only [parseVal]
          rw [skipWs_nonws _ _ (by decide)]
          dsimp only
          rw [if_neg (by decide), if_neg (by decide), if_neg (by decide),
            if_neg (by decide), if_pos rfl]
          rw [skipWs_nonws _ _ (by decide)]
          dsimp only
          rw [if_pos rfl]
        | cons h t =>
          show parseVal (fuel + 1)
              ('[' :: ((dumpA (JArr.cons h t) ++ [']']) ++ rest))
            = some (Json.arr (JArr.cons h t), rest)
          rw [List.append_assoc]
          rw [show ([']'] ++ rest : List Char) = ']' :: rest from rfl]
          simp only [parseVal]
          rw [skipWs_nonws _ _ (by decide)]
          dsimp only
          rw [if_neg (by decide), if_neg (by decide), if_neg (by decide),
            if_neg (by decide), if_pos rfl]
          obtain ⟨c0, cs0, hc0, hw0, hne0, _, _, _⟩ := dumpJ_head h
          have hda : ∃ cs', dumpA (JArr.cons h t) = c0 :: cs' := by
            cases t with
            | nil => exact ⟨cs0, hc0⟩
            | cons h2 t2 =>
              refine ⟨cs0 ++ (',' :: ' ' :: dumpA (JArr.cons h2 t2)), ?_⟩
              show dumpJ h ++ (',' :: ' ' :: dumpA (JArr.cons h2 t2)) = _
              rw [hc0]
              rfl
          obtain ⟨cs', hcs'⟩ := hda
          rw [hcs', List.cons_append]
          rw [skipWs_nonws _ _ hw0]
          dsimp only
          rw [if_neg hne0]
          rw [← List.cons_append, ← hcs']
          rw [ihQ (JArr.cons h t) rest (by simp)
            (by simp only [sizeJ] at hs; omega) hg]
      | obj o =>
        cases o with
        | nil =>
          show parseVal (fuel + 1) ('\x7b' :: '\x7d' :: rest)
            = some (Json.obj JObj.nil, rest)
          simp only [parseVal]
          rw [skipWs_nonws _ _ (by decide)]
          dsimp only
          rw [if_neg (by decide), if_neg (by decide), if_neg (by decide),
            if_neg (by decide), if_neg (by decide), if_pos rfl]
          rw [skipWs_nonws _ _ (by decide)]
          dsimp only
          rw [if_pos rfl]
        | cons k v t =>
          show parseVal (fuel + 1)
              ('\x7b' :: ((dumpO (JObj.cons k v t) ++ ['\x7d']) ++ rest))
            = some (Json.obj (JObj.cons k v t), rest)
          rw [List.append_assoc]
          rw [show (['\x7d'] ++ rest : List Char) = '\x7d' :: rest from rfl]
          simp only [parseVal]
          rw [skipWs_nonws _ _ (by decide)]
          dsimp only
          rw [if_neg (by decide), if_neg (by decide), if_neg (by decide),
            if_neg (by decide), if_neg (by decide), if_pos rfl]
          have hdo : ∃ cs', dumpO (JObj.cons k v t) = '"' :: cs' := by
            cases t with
            | nil => exact ⟨_, rfl⟩
            | cons k2 v2 t2 => exact ⟨_, rfl⟩
          obtain ⟨cs', hcs'⟩ := hdo
          rw [hcs', List.cons_append]
          rw [skipWs_nonws _ _ (by decide)]
          dsimp only
          rw [if_neg (by decide)]
          rw [← List.cons_append, ← hcs']
          rw [ihR (JObj.cons k v t) rest (by simp)
            (by simp only [sizeJ] at hs; omega) hg]
    · intro a rest ha hs hg
      cases a with
      | nil => exact absurd rfl ha
      | cons h t =>
        cases t with
        | nil =>
          show parseArr (fuel + 1) (dumpJ h ++ ']' :: rest)
            = some (JArr.cons h JArr.nil, rest)
          simp only [parseArr]
          rw [ihP h (']' :: rest)
            (by simp only [sizeA, sizeJ] at hs ⊢; omega)
            (by simp [goodTail])]
          dsimp only
          rw [skipWs_nonws _ _ (by decide)]
          dsimp only
          rw [if_neg (by decide), if_pos rfl]
        | cons h2 t2 =>
          show parseArr (fuel + 1)
              ((dumpJ h ++ (',' :: ' ' :: dumpA (JArr.cons h2 t2))) ++ ']' :: rest)
            = some (JArr.cons h (JArr.cons h2 t2), rest)
          rw [List.append_assoc]
          rw [show ((',' :: ' ' :: dumpA (JArr.cons h2 t2)) ++ ']' :: rest)
            = ',' :: ' ' :: (dumpA (JArr.cons h2 t2) ++ ']' :: rest) from rfl]
          have hst : sizeA (JArr.cons h2 t2) ≤ fuel ∧ sizeJ h ≤ fuel := by
            have h1 := sizeJ_pos h
            have h2p := sizeJ_pos h2
            simp only [sizeA] at hs
            constructor
            · simp only [sizeA]
              omega
            · omega
          simp only [parseArr]
          rw [ihP h (',' :: ' ' :: (dumpA (JArr.cons h2 t2) ++ ']' :: rest))
            hst.2 (by simp [goodTail])]
          dsimp only
          rw [skipWs_nonws _ _ (by decide)]
          dsimp only
          rw [if_pos rfl]
          rw [skipWs_ws_cons _ _ (by decide)]
          obtain ⟨c0, cs0, hc0, hw0, _, _, _, _⟩ := dumpJ_head h2
          have hda : ∃ cs', dumpA (JArr.cons h2 t2) = c0 :: cs' := by
            cases t2 with
            | nil => exact ⟨cs0, hc0⟩
            | cons h3 t3 =>
              refine ⟨cs0 ++ (',' :: ' ' :: dumpA (JArr.cons h3 t3)), ?_⟩
              show dumpJ h2 ++ (',' :: ' ' :: dumpA (JArr.cons h3 t3)) = _
              rw [hc0]
              rfl
          obtain ⟨cs', hcs'⟩ := hda
          rw [hcs', List.cons_append, skipWs_nonws _ _ hw0,
            ← List.cons_append, ← hcs']
          rw [ihQ (JArr.cons h2 t2) rest (by simp) hst.1 hg]
    · intro o rest ho hs hg
      cases o with
      | nil => exact absurd rfl ho
      | cons k v t =>
        cases t with
        | nil =>
          show parseObj (fuel + 1)
              (('"' :: (escString k.data ++ ('"' :: ':' :: ' ' :: dumpJ v)))
                ++ '\x7d' :: rest)
            = some (JObj.cons k v JObj.nil, rest)
          rw [show ('"' :: (escString k.data ++ ('"' :: ':' :: ' ' :: dumpJ v)))
              ++ '\x7d' :: rest
            = '"' :: (escString k.data
              ++ ('"' :: ':' :: ' ' :: (dumpJ v ++ '\x7d' :: rest)))
            from by simp [List.append_assoc]]
          simp only [parseObj]
          rw [skipWs_nonws _ _ (by decide)]
          dsimp only
          rw [if_pos rfl]
          rw [show (escString k.data
              ++ ('"' :: ':' :: ' ' :: (dumpJ v ++ '\x7d' :: rest)))
            = escString k.data
              ++ '"' :: (':' :: ' ' :: (dumpJ v ++ '\x7d' :: rest)) from rfl]
          rw [parseStr_round]
          dsimp only
          rw [skipWs_nonws _ _ (by decide)]
          dsimp only
          rw [if_pos rfl]
          rw [skipWs_ws_cons _ _ (by decide)]
          obtain ⟨c0, cs0, hc0, hw0, _, _, _, _⟩ := dumpJ_head v
          rw [hc0, List.cons_append, skipWs_nonws _ _ hw0,
            ← List.cons_append, ← hc0]
          rw [ihP v ('\x7d' :: rest)
            (by simp only [sizeO] at hs; omega) (by simp [goodTail])]
          dsimp only
          rw [skipWs_nonws _ _ (by decide)]
          dsimp only
          rw [if_neg (by decide), if_pos rfl]
        | cons k2 v2 t2 =>
          show parseObj (fuel + 1)
              (('"' :: (escString k.data ++ ('"' :: ':' :: ' ' ::
                (dumpJ v ++ (',' :: ' ' :: dumpO (JObj.cons k2 v2 t2))))))
                ++ '\x7d' :: rest)
            = some (JObj.cons k v (JObj.cons k2 v2 t2), rest)
          rw [show ('"' :: (escString k.data ++ ('"' :: ':' :: ' ' ::
                (dumpJ v ++ (',' :: ' ' :: dumpO (JObj.cons k2 v2 t2))))))
                ++ '\x7d' :: rest
            = '"' :: (escString k.data ++ ('"' :: ':' :: ' ' ::
                (dumpJ v ++ (',' :: ' ' ::
                  (dumpO (JObj.cons k2 v2 t2) ++ '\x7d' :: rest)))))
            from by simp [List.append_assoc]]
          have hst : sizeO (JObj.cons k2 v2 t2) ≤ fuel ∧ sizeJ v ≤ fuel := by
            have h1 := sizeJ_pos v
            have h2p := sizeJ_pos v2
            simp only [sizeO] at hs
            constructor
            · simp only [sizeO]
              omega
            · omega
          simp only [parseObj]
          rw [skipWs_nonws _ _ (by decide)]
          dsimp only
          rw [if_pos rfl]
          rw [show (escString k.data ++ ('"' :: ':' :: ' ' ::
                (dumpJ v ++ (',' :: ' ' ::
                  (dumpO (JObj.cons k2 v2 t2) ++ '\x7d' :: rest)))))
            = escString k.data ++ '"' :: (':' :: ' ' ::
                (dumpJ v ++ (',' :: ' ' ::
                  (dumpO (JObj.cons k2 v2 t2) ++ '\x7d' :: rest)))) from rfl]
          rw [parseStr_round]
          dsimp only
          rw [skipWs_nonws _ _ (by decide)]
          dsimp only
          rw [if_pos rfl]
          rw [skipWs_ws_cons _ _ (by decide)]
          obtain ⟨c0, cs0, hc0, hw0, _, _, _, _⟩ := dumpJ_head v
          rw [hc0, List.cons_append, skipWs_nonws _ _ hw0,
            ← List.cons_append, ← hc0]
          rw [ihP v (',' :: ' ' ::
              (dumpO (JObj.cons k2 v2 t2) ++ '\x7d' :: rest))
            hst.2 (by simp [goodTail])]
          dsimp only
          rw [skipWs_nonws _ _ (by decide)]
          dsimp only
          rw [if_pos rfl]
          rw [parseObj_ws_cons _ _ _ (by decide)]
          rw [ihR (JObj.cons k2 v2 t2) rest (by simp) hst.1 hg]

/-! ## No raw newline in serialized output, and size bounds -/
theorem escChar_no_nl (c : Char) : '\n' ∉ escChar c := by
  rw [escChar]
  split_ifs with h1 h2 h3 h4 h5 h6 h7
  · decide
  · decide
  · decide
  · decide
  · decide
  · decide
  · decide
  · intro m
    exact h3 (List.mem_singleton.mp m).symm

theorem escString_no_nl (s : List Char) : '\n' ∉ escString s := by
  induction s with
  | nil => simp [escString]
  | cons c t ih =>
    simp only [escString, List.map_cons, List.flatten_cons, List.mem_append]
    rintro (m1 | m2)
    · exact escChar_no_nl c m1
    · exact ih m2

theorem natToChars_no_nl (n : Nat) : '\n' ∉ natToChars n := by
  induction n using Nat.strong_induction_on with
  | _ n ih =>
    rw [natToChars]
    split_ifs with h
    · intro m
      have he := List.mem_singleton.mp m
      have := (digitChar_ne n).1
      rw [← he] at this
      exact absurd this (by decide)
    · intro m
      rcases List.mem_append.mp m with m1 | m2
      · exact ih (n / 10) (Nat.div_lt_self (by omega) (by omega)) m1
      · have he := List.mem_singleton.mp m2
        have := (digitChar_ne (n % 10)).1
        rw [← he] at this
        exact absurd this (by decide)

theorem intToChars_no_nl (i : Int) : '\n' ∉ intToChars i := by
  rw [intToChars]
  split_ifs with h
  · intro m
    rcases List.mem_cons.mp m with e | m2
    · exact absurd e (by decide)
    · exact natToChars_no_nl _ m2
  · exact natToChars_no_nl _

mutual
theorem dumpJ_no_nl : (j : Json) → '\n' ∉ dumpJ j
  | .null => by decide
  | .bool true => by decide
  | .bool false => by decide
  | .num n => intToChars_no_nl n
  | .str s => by
    intro m
    rcases List.mem_cons.mp m with e | m2
    · exact absurd e (by decide)
    · rcases List.mem_append.mp m2 with m3 | m4
      · exact escString_no_nl s.data m3
      · exact absurd (List.mem_singleton.mp m4) (by decide)
  | .arr a => by
    intro m
    rcases List.mem_cons.mp m with e | m2
    · exact absurd e (by decide)
    · rcases List.mem_append.mp m2 with m3 | m4
      · exact dumpA_no_nl a m3
      · exact absurd (List.mem_singleton.mp m4) (by decide)
  | .obj o => by
    intro m
    rcases List.mem_cons.mp m with e | m2
    · exact absurd e (by decide)
    · rcases List.mem_append.mp m2 with m3 | m4
      · exact dumpO_no_nl o m3
      · exact absurd (List.mem_singleton.mp m4) (by decide)
theorem dumpA_no_nl : (a : JArr) → '\n' ∉ dumpA a
  | .nil => by simp [dumpA]
  | .cons h .nil => dumpJ_no_nl h
  | .cons h (.cons h2 t) => by
    intro m
    rcases List.mem_append.mp m with m1 | m2
    · exact dumpJ_no_nl h m1
    · rcases List.mem_cons.mp m2 with e | m3
      · exact absurd e (by decide)
      · rcases List.mem_cons.mp m3 with e | m4
        · exact absurd e (by decide)
        · exact dumpA_no_nl (JArr.cons h2 t) m4
theorem dumpO_no_nl : (o : JObj) → '\n' ∉ dumpO o
  | .nil => by simp [dumpO]
  | .cons k v .nil => by
    intro m
    rcases List.mem_cons.mp m with e | m2
    · exact absurd e (by decide)
    · rcases List.mem_append.mp m2 with m3 | m4
      · exact escString_no_nl k.data m3
      · rcases List.mem_cons.mp m4 with e | m5
        · exact absurd e (by decide)
        · rcases List.mem_cons.mp m5 with e | m6
          · exact absurd e (by decide)
          · rcases List.mem_cons.mp m6 with e | m7
            · exact absurd e (by decide)
            · exact dumpJ_no_nl v m7
  | .cons k v (.cons k2 v2 t) => by
    intro m
    rcases List.mem_cons.mp m with e | m2
    · exact absurd e (by decide)
    · rcases List.mem_append.mp m2 with m3 | m4
      · exact escString_no_nl k.data m3
      · rcases List.mem_cons.mp m4 with e | m5
        · exact absurd e (by decide)
        · rcases List.mem_cons.mp m5 with e | m6
          · exact absurd e (by decide)
          · rcases List.mem_cons.mp m6 with e | m7
            · exact absurd e (by decide)
            · rcases List.mem_append.mp m7 with m8 | m9
              · exact dumpJ_no_nl v m8
              · rcases List.mem_cons.mp m9 with e | m10
                · exact absurd e (by decide)
                · rcases List.mem_cons.mp m10 with e | m11
                  · exact absurd e (by decide)
                  · exact dumpO_no_nl (JObj.cons k2 v2 t) m11
end

theorem intToChars_ne_nil (i : Int) : intToChars i ≠ [] := by
  rw [intToChars]
  split_ifs with h
  · simp
  · exact natToChars_ne_nil _

mutual
theorem sizeJ_le_dump : (j : Json) → sizeJ j ≤ (dumpJ j).length
  | .null => by decide
  | .bool true => by decide
  | .bool false => by decide
  | .num n => by
    show 1 ≤ (intToChars n).length
    have hne := intToChars_ne_nil n
    cases hc : intToChars n with
    | nil => exact absurd hc hne
    | cons a l => simp
  | .str s => by
    show 1 ≤ ('"' :: (escString s.data ++ ['"'])).length
    simp
  | .arr a => by
    have ha := sizeA_le_dump a
    show sizeA a + 1 ≤ ('[' :: (dumpA a ++ [']'])).length
    simp only [List.length_cons, List.length_append]
    omega
  | .obj o => by
    have ho := sizeO_le_dump o
    show sizeO o + 1 ≤ ('\x7b' :: (dumpO o ++ ['\x7d'])).length
    simp only [List.length_cons, List.length_append]
    omega
theorem sizeA_le_dump : (a : JArr) → sizeA a ≤ (dumpA a).length + 1
  | .nil => by simp [sizeA, dumpA]
  | .cons h .nil => by
    have hj := sizeJ_le_dump h
    show sizeJ h + sizeA JArr.nil + 1 ≤ (dumpJ h).length + 1
    simp only [sizeA]
    omega
  | .cons h (.cons h2 t) => by
    have hj := sizeJ_le_dump h
    have ht := sizeA_le_dump (JArr.cons h2 t)
    show sizeJ h + sizeA (JArr.cons h2 t) + 1
      ≤ (dumpJ h ++ (',' :: ' ' :: dumpA (JArr.cons h2 t))).length + 1
    simp only [List.length_append, List.length_cons]
    omega
theorem sizeO_le_dump : (o : JObj) → sizeO o ≤ (dumpO o).length + 1
  | .nil => by simp [sizeO, dumpO]
  | .cons k v .nil => by
    have hj := sizeJ_le_dump v
    show sizeJ v + sizeO JObj.nil + 1
      ≤ ('"' :: (escString k.data ++ ('"' :: ':' :: ' ' :: dumpJ v))).length + 1
    simp only [sizeO, List.length_cons, List.length_append]
    omega
  | .cons k v (.cons k2 v2 t) => by
    have hj := sizeJ_le_dump v
    have ht := sizeO_le_dump (JObj.cons k2 v2 t)
    show sizeJ v + sizeO (JObj.cons k2 v2 t) + 1
      ≤ ('"' :: (escString k.data ++ ('"' :: ':' :: ' ' ::
          (dumpJ v ++ (',' :: ' ' :: dumpO (JObj.cons k2 v2 t)))))).length + 1
    simp only [List.length_cons, List.length_append]
    omega
end

theorem loads_dumps (j : Json) : loads (dumps j) = some j := by
  have h := (parse_dump_aux ((dumpJ j).length + 1)).1 j []
    (by have := sizeJ_le_dump j; omega) rfl
  rw [List.append_nil] at h
  show (match parseVal ((dumpJ j).length + 1) (dumpJ j) with
    | some (jj, r) => if skipWs r = [] then some jj else none
    | none => none) = some j
  simp only [h]
  simp [skipWs]

theorem splitNl_frame (f r : List Char) (hf : '\n' ∉ f) :
    splitNl (f ++ '\n' :: r) = some (f, r) := by
  induction f with
  | nil => simp [splitNl]
  | cons c t ih =>
    have hc : c ≠ '\n' := by
      intro e
      exact hf (List.mem_cons.mpr (Or.inl e.symm))
    have ht : '\n' ∉ t := fun m => hf (List.mem_cons.mpr (Or.inr m))
    rw [List.cons_append]
    simp only [splitNl, if_neg hc, ih ht]

theorem drainFrames_bad (f r : List Char) (hf : '\n' ∉ f)
    (hl : loads (String.mk f) = none) :
    drainFrames (f ++ '\n' :: r) = drainFrames r := by
  have hsp := splitNl_frame f r hf
  rw [drainFrames]
  split
  · rename_i heq
    rw [hsp] at heq
    cases heq
  · rename_i f2 r2 heq
    rw [hsp] at heq
    simp only [Option.some.injEq, Prod.mk.injEq] at heq
    obtain ⟨h1, h2⟩ := heq
    subst h1
    subst h2
    simp only [hl]

theorem drainFrames_good (f r : List Char) (hf : '\n' ∉ f) (j : Json)
    (hl : loads (String.mk f) = some j) :
    drainFrames (f ++ '\n' :: r)
      = (j :: (drainFrames r).1, (drainFrames r).2) := by
  have hsp := splitNl_frame f r hf
  rw [drainFrames]
  split
  · rename_i heq
    rw [hsp] at heq
    cases heq
  · rename_i f2 r2 heq
    rw [hsp] at heq
    simp only [Option.some.injEq, Prod.mk.injEq] at heq
    obtain ⟨h1, h2⟩ := heq
    subst h1
    subst h2
    simp only [hl]

/-- C8: for every envelope in the JSON model, `encode` appends exactly one
newline delimiter after the serialization, the serialization itself contains
no raw newline, and decoding the encoded bytes yields the same envelope with
an empty remainder buffer: `decode (encode env) = (some env, "")`. -/
theorem c8_roundtrip (env : Json) :
    (encode env).data = (dumps env).data ++ ['\n'] ∧
    '\n' ∉ (dumps env).data ∧
    decode (encode env) = (some env, "") := by
  refine ⟨rfl, dumpJ_no_nl env, ?_⟩
  have hsp : splitNl (dumpJ env ++ '\n' :: []) = some (dumpJ env, []) :=
    splitNl_frame _ _ (dumpJ_no_nl env)
  show (match splitNl (dumpJ env ++ ['\n']) with
    | none => (none, encode env)
    | some (f, r) => (loads (String.mk f), String.mk r)) = (some env, "")
  simp only [hsp]
  rw [show String.mk (dumpJ env) = dumps env from rfl, loads_dumps]

/-- C9: a newline-terminated frame that is not valid JSON is dropped by the
receive loop without affecting the rest of the buffer: draining the buffer
with the bad frame yields exactly the result of draining the remainder, and
a well-formed encoded envelope following the bad frame is still parsed and
dispatched normally. -/
theorem c9_malformed_frame (bad rest : List Char) (env : Json)
    (hb : '\n' ∉ bad) (hl : loads (String.mk bad) = none) :
    drainFrames (bad ++ '\n' :: rest) = drainFrames rest ∧
    drainFrames (bad ++ '\n' :: ((encode env).data ++ rest))
      = (env :: (drainFrames rest).1, (drainFrames rest).2) := by
  constructor
  · exact drainFrames_bad bad rest hb hl
  · rw [show (encode env).data ++ rest = dumpJ env ++ '\n' :: rest from by
      simp [encode]]
    rw [drainFrames_bad bad _ hb hl]
    exact drainFrames_good (dumpJ env) rest (dumpJ_no_nl env) env
      (loads_dumps env)

/-- Concrete instance of the malformed-frame property: the frame "x" is not
JSON, so it is dropped, and a following encoded `null` envelope is still
parsed. -/
theorem c9_malformed_frame_witness :
    drainFrames (['x'] ++ '\n' :: []) = drainFrames [] ∧
    drainFrames (['x'] ++ '\n' :: ((encode Json.null).data ++ []))
      = (Json.null :: (drainFrames []).1, (drainFrames []).2) :=
  c9_malformed_frame ['x'] [] Json.null (by decide) (by decide)
